import Mathlib

/-!
Verification of the Basic Station (MultiTechSystems/basicstation) natural
language specification against a shallow embedding of the program.

The embedding covers:
* the datarate (DR) table machinery of the S2E session engine
  (`s2e_dr2rps_up`, `s2e_dr2rps_dn`, the 125 kHz channel-plan predicate);
* the LoRa PHY frame parser `s2e_parse_lora_frame` (join request, rejoin
  request, data frames, JoinEUI and NetID filters);
* the CCA/LBT setup and TX gain LUT limiting of `sx130xconf.c`
  (`setup_LBT`, `sx130xconf_start`);
* the TC protocol format switch of `tcpb.c` (`tcpb_setFormat`,
  `tcpb_enabled`);
* the binary (protobuf) codec for the downlink message (`tcpb_decode`
  against the LNS-side encoding of `DownlinkMessage`);
* the PPS loss recovery state machine of `timesync.c`.
-/

/- ========================================================================
   Part 1: DR tables and radio parameter sets (rps)
   ======================================================================== -/

/-- Modelled from the spec: a radio parameter set (`rps_t` in `rt.h`/`s2e.h`,
which are not part of the provided sources).  The spec describes a DR table
entry as a `(spreading-factor, bandwidth, downlink-only)` triple where entries
may be undefined (RFU/LR-FHSS, `RPS_ILLEGAL` in the code) or FSK (`RPS_FSK`).
`lora sf bw` carries the spreading factor (5..12) and the bandwidth in kHz
(125, 250 or 500). -/
inductive Rps where
  | illegal : Rps
  | fsk : Rps
  | lora (sf : Nat) (bw : Nat) : Rps
deriving DecidableEq, Repr

/-- Modelled from the spec: `rps_bw` extracts the bandwidth of an rps value.
In the C encoding `rps_bw(RPS_ILLEGAL)` yields `BWNIL` (modelled as 0, which
is none of 125/250/500) and `RPS_FSK` carries `BW125`, which is why the
channel-plan predicates exclude FSK explicitly. -/
def rps_bw : Rps → Nat
  | .illegal => 0
  | .fsk => 125
  | .lora _ bw => bw

/-- Number of DR table entries (`DR_CNT`). -/
def DR_CNT : Nat := 16

/-- The part of the S2E session context relevant to DR mapping: the legacy
symmetric table `dr_defs`, the RP002-1.0.5 asymmetric tables
`dr_defs_up`/`dr_defs_dn` and the `asymmetric_drs` flag (from `s2e.h` as
excerpted in the updn-dr design document). -/
structure S2ctx where
  asymmetric_drs : Bool
  dr_defs : Nat → Rps
  dr_defs_up : Nat → Rps
  dr_defs_dn : Nat → Rps

/-- `s2e_dr2rps`: legacy DR lookup, always consulting the symmetric table
`dr_defs`; out-of-range DR indices map to `RPS_ILLEGAL`. -/
def s2e_dr2rps (s2ctx : S2ctx) (dr : Nat) : Rps :=
  if dr ≥ DR_CNT then .illegal else s2ctx.dr_defs dr

/-- `s2e_dr2rps_up` from `s2e.c` (code excerpted in the updn-dr design
document): uplink DR lookup.  Out-of-range indices map to `RPS_ILLEGAL`;
in asymmetric mode the uplink table is consulted, otherwise the legacy
symmetric table. -/
def s2e_dr2rps_up (s2ctx : S2ctx) (dr : Nat) : Rps :=
  if dr ≥ DR_CNT then .illegal
  else if s2ctx.asymmetric_drs then s2ctx.dr_defs_up dr
  else s2ctx.dr_defs dr

/-- `s2e_dr2rps_dn` from `s2e.c` (code excerpted in the updn-dr design
document): downlink DR lookup. -/
def s2e_dr2rps_dn (s2ctx : S2ctx) (dr : Nat) : Rps :=
  if dr ≥ DR_CNT then .illegal
  else if s2ctx.asymmetric_drs then s2ctx.dr_defs_dn dr
  else s2ctx.dr_defs dr

/-- Modelled from the spec: the production `any125kHz` helper of `s2e.c`
(exposed to the selftests as `s2e_test_any125kHz`; its body is not among the
provided sources).  Per the selftest file it is the loop
`for dr in [minDR,maxDR]: rps := s2e_dr2rps_up(s2ctx,dr); if rps != RPS_FSK
and rps_bw(rps) == BW125 then true` — i.e. the replicated buggy version with
the legacy lookup `s2e_dr2rps` replaced by the uplink lookup
`s2e_dr2rps_up`. -/
def s2e_test_any125kHz (s2ctx : S2ctx) (minDR maxDR : Nat) : Bool :=
  (List.range' minDR (maxDR + 1 - minDR)).any fun dr =>
    let rps := s2e_dr2rps_up s2ctx dr
    decide (rps ≠ .fsk) && decide (rps_bw rps = 125)

/-- The buggy replica `test_any125kHz_buggy` from the selftest file: same
loop, but consulting the legacy lookup `s2e_dr2rps`. -/
def test_any125kHz_buggy (s2ctx : S2ctx) (minDR maxDR : Nat) : Bool :=
  (List.range' minDR (maxDR + 1 - minDR)).any fun dr =>
    let rps := s2e_dr2rps s2ctx dr
    decide (rps ≠ .fsk) && decide (rps_bw rps = 125)

/-- The US915 RP002-1.0.5 asymmetric uplink DR table from
`init_asymmetric_drs` in the selftest file. -/
def us915UpTable : Nat → Rps
  | 0 => .lora 10 125
  | 1 => .lora 9 125
  | 2 => .lora 8 125
  | 3 => .lora 7 125
  | 4 => .lora 8 500
  | 7 => .lora 6 125
  | 8 => .lora 5 125
  | _ => .illegal

/-- The US915 RP002-1.0.5 asymmetric downlink DR table from
`init_asymmetric_drs` in the selftest file. -/
def us915DnTable : Nat → Rps
  | 0 => .lora 5 500
  | 8 => .lora 12 500
  | 9 => .lora 11 500
  | 10 => .lora 10 500
  | 11 => .lora 9 500
  | 12 => .lora 8 500
  | 13 => .lora 7 500
  | 14 => .lora 6 500
  | _ => .illegal

/-- The asymmetric-mode test context of `init_asymmetric_drs`: legacy table
all `RPS_ILLEGAL`, asymmetric tables populated for US915 RP002-1.0.5. -/
def asymCtx : S2ctx :=
  { asymmetric_drs := true
    dr_defs := fun _ => .illegal
    dr_defs_up := us915UpTable
    dr_defs_dn := us915DnTable }

/- ========================================================================
   Part 2: LoRa PHY frame parsing (s2e_parse_lora_frame)
   ======================================================================== -/

/-- Little-endian read of `n` bytes at offset `off` of a byte list
(`rt_rlsbf2` / `rt_rlsbf4` / `rt_rlsbf8` in `rt.h`). -/
def rlsbf (n off : Nat) (frame : List Nat) : Nat :=
  ((frame.drop off).take n).foldr (fun b acc => acc * 256 + b) 0

/-- Reinterpretation of an unsigned 32-bit value as a signed 32-bit integer
(the `(s4_t)` cast applied to `rt_rlsbf4` results). -/
def toS32 (u : Nat) : Int :=
  if u < 2 ^ 31 then (u : Int) else (u : Int) - 2 ^ 32

/-- Uppercase hex digit for a value below 16. -/
def hexDigit (n : Nat) : Char :=
  if n < 10 then Char.ofNat (48 + n) else Char.ofNat (55 + n)

/-- Two-digit uppercase hex rendering of one byte. -/
def byteHex (b : Nat) : String :=
  String.mk [hexDigit (b / 16 % 16), hexDigit (b % 16)]

/-- Uppercase hex rendering of a byte list (the `%H`/`'H'` format of the
JSON encoder). -/
def hexStr (bs : List Nat) : String :=
  String.join (bs.map byteHex)

/-- Hyphenated big-endian rendering of a 64-bit EUI (the `'E'` format of the
JSON encoder), e.g. `EF-CD-AB-89-67-45-23-01`. -/
def euiStr (v : Nat) : String :=
  String.intercalate "-"
    ((List.range 8).map fun i => byteHex (v / 256 ^ (7 - i) % 256))

/-- The structured content of a message emitted by `s2e_parse_lora_frame`:
one constructor per `msgtype`, carrying the fields the JSON encoder writes. -/
inductive LoraMsg where
  | jacc (frmPayload : String) : LoraMsg
  | propdf (frmPayload : String) : LoraMsg
  | jreq (mhdr : Nat) (joinEui devEui : String) (devNonce : Nat) (mic : Int) : LoraMsg
  | rejoin (mhdr : Nat) (pdu : String) (mic : Int) : LoraMsg
  | updf (mhdr : Nat) (devAddr : Int) (fctrl : Nat) (fcnt : Nat)
      (fopts : String) (fport : Int) (frmPayload : String) (mic : Int) : LoraMsg
deriving DecidableEq, Repr

/-- JoinEUI filter pass check: an empty filter passes everything, otherwise
the EUI must fall in one of the `(lo, hi)` ranges (`s2e_joineuiFilter` is a
zero-pair-terminated array of ranges in the C code, modelled as a list). -/
def joineuiPass (filter : List (Nat × Nat)) (eui : Nat) : Bool :=
  filter.isEmpty || filter.any fun p => decide (p.1 ≤ eui) && decide (eui ≤ p.2)

/-- Modelled from the spec: `s2e_parse_lora_frame` of `lora.c` (the file
itself is not among the provided sources; the rejoin branch is excerpted in
the rejoin design document and the remaining behaviour is fixed by
`selftest_lora`).  The NetID filter `s2e_netidFilter` (four 32-bit words) is
modelled as one 128-bit bitmap tested at the 7-bit NetID.  Returns `none`
when the frame is dropped, `some msg` when a message is emitted.  Downlink
data frames are outside the scope of this model and map to `none`. -/
def s2e_parse_lora_frame (euiFilter : List (Nat × Nat)) (netidFilter : Nat)
    (frame : List Nat) : Option LoraMsg :=
  match frame with
  | [] => none
  | mhdr :: _ =>
    let len := frame.length
    let ftype := mhdr &&& 0xE0
    if mhdr &&& 0x03 ≠ 0 then none             -- major version must be V1
    else if ftype = 0xE0 then some (.propdf (hexStr frame))
    else if ftype = 0x20 then some (.jacc (hexStr frame))
    else if len < 12 then none                 -- OFF_df_minlen
    else if ftype = 0x00 then                  -- FRMTYPE_JREQ
      if len ≠ 23 then none
      else
        let joineui := rlsbf 8 1 frame
        if joineuiPass euiFilter joineui then
          some (.jreq mhdr (euiStr joineui) (euiStr (rlsbf 8 9 frame))
            (rlsbf 2 17 frame) (toS32 (rlsbf 4 (len - 4) frame)))
        else none
    else if ftype = 0xC0 then                  -- FRMTYPE_REJOIN
      if len < 19 ∨ len > 24 then none
      else some (.rejoin mhdr (hexStr frame) (toS32 (rlsbf 4 (len - 4) frame)))
    else if ftype = 0x40 ∨ ftype = 0x80 then   -- FRMTYPE_DAUP / FRMTYPE_DCUP
      let devaddr := rlsbf 4 1 frame
      let fctrl := frame.getD 5 0
      let foptslen := fctrl &&& 0x0F
      if len < 8 + foptslen + 4 then none
      else if !(netidFilter.testBit (devaddr >>> 25)) then none
      else
        let portoff := 8 + foptslen
        let fopts := hexStr ((frame.drop 8).take foptslen)
        let mic := toS32 (rlsbf 4 (len - 4) frame)
        if portoff = len - 4 then
          some (.updf mhdr (toS32 devaddr) fctrl (rlsbf 2 6 frame) fopts (-1) "" mic)
        else
          some (.updf mhdr (toS32 devaddr) fctrl (rlsbf 2 6 frame) fopts
            (frame.getD portoff 0)
            (hexStr ((frame.drop (portoff + 1)).take (len - 4 - portoff - 1))) mic)
    else none

/-- Modelled from the spec: the per-session view of uplink processing.  A
parse failure only drops the frame and bumps a counter; it never terminates
the session ("count but do not disconnect"). -/
structure Session where
  alive : Bool
  parseErrors : Nat
deriving DecidableEq, Repr

/-- Modelled from the spec: process one received PHY frame against the
session.  The frame is parsed; on failure the error counter is bumped and
nothing is emitted; the session stays in its current liveness state either
way. -/
def sessionProcessUplink (euiFilter : List (Nat × Nat)) (netidFilter : Nat)
    (s : Session) (frame : List Nat) : Session × Option LoraMsg :=
  match s2e_parse_lora_frame euiFilter netidFilter frame with
  | some msg => (s, some msg)
  | none => ({ s with parseErrors := s.parseErrors + 1 }, none)

/-- The join request frame of `selftest_lora`. -/
def jreqFrame : List Nat :=
  [0x00, 0x01, 0x23, 0x45, 0x67, 0x89, 0xAB, 0xCD, 0xEF, 0xF1, 0xE3, 0xF5,
   0xE7, 0xF9, 0xEB, 0xFD, 0xEF, 0xF0, 0xF1, 0xA0, 0xA1, 0xA2, 0xA3]

/-- The rejoin type 0 frame of `selftest_lora` (19 bytes). -/
def rejoin0Frame : List Nat :=
  [0xC0, 0x00, 0x01, 0x02, 0x03, 0xF1, 0xE3, 0xF5, 0xE7, 0xF9, 0xEB, 0xFD,
   0xEF, 0x10, 0x20, 0xA0, 0xA1, 0xA2, 0xA3]

/-- The rejoin type 1 frame of `selftest_lora` (24 bytes). -/
def rejoin1Frame : List Nat :=
  [0xC0, 0x01, 0x01, 0x23, 0x45, 0x67, 0x89, 0xAB, 0xCD, 0xEF, 0xF1, 0xE3,
   0xF5, 0xE7, 0xF9, 0xEB, 0xFD, 0xEF, 0x30, 0x40, 0xB0, 0xB1, 0xB2, 0xB3]

/-- The JoinEUI filter `euiFilter1` of `selftest_lora`: a single range that
blocks the test join request. -/
def euiFilter1 : List (Nat × Nat) :=
  [(0xEFCDAB8967452300, 0xEFCDAB8967452300)]

/-- The JoinEUI filter `euiFilter2` of `selftest_lora`: a single range that
passes the test join request. -/
def euiFilter2 : List (Nat × Nat) :=
  [(0xEFCDAB8967452300, 0xEFCDAB8967452301)]

/- ========================================================================
   Part 3: sx130xconf.c — CCA/LBT setup and TX gain LUT limiting
   (CFG_sx1302 build, the configuration used by this repository)
   ======================================================================== -/

/-- Bandwidth code `BW_UNDEFINED` of the HAL. -/
def BW_UNDEFINED : Nat := 0
/-- Bandwidth code `BW_125KHZ` of the HAL. -/
def BW_125KHZ : Nat := 4
/-- Bandwidth code `BW_250KHZ` of the HAL. -/
def BW_250KHZ : Nat := 5
/-- Bandwidth code `BW_500KHZ` of the HAL. -/
def BW_500KHZ : Nat := 6
/-- `LGW_IF_CHAIN_NB`: number of IF chains of the concentrator. -/
def LGW_IF_CHAIN_NB : Nat := 10
/-- `LGW_LBT_CHANNEL_NB_MAX`: capacity of the sx1261 LBT channel table. -/
def LGW_LBT_CHANNEL_NB_MAX : Nat := 16
/-- `TX_DWELLTIME_LBT` default (`J_tx_dwelltime_lbt`). -/
def TX_DWELLTIME_LBT : Nat := 4000

/-- One RF front-end configuration (`struct lgw_conf_rxrf_s`), restricted to
the fields `setup_LBT` reads. -/
structure Rfconf where
  enable : Bool
  freq_hz : Nat
deriving DecidableEq, Repr

/-- One IF chain configuration (`struct lgw_conf_rxif_s`), restricted to the
fields `setup_LBT` reads.  `freq_hz` is the signed IF offset. -/
structure Ifconf where
  enable : Bool
  rf_chain : Nat
  freq_hz : Int
  bandwidth : Nat
deriving DecidableEq, Repr

/-- One LBT channel entry (`struct lgw_conf_lbt_chan_s`). -/
structure LbtChannel where
  freq_hz : Nat
  bandwidth : Nat
  scan_time_us : Nat
  transmit_time_ms : Nat
deriving DecidableEq, Repr

/-- The sx1261 LBT configuration (`lbt_conf` inside `sx1261_cfg`). -/
structure LbtConf where
  enable : Bool
  rssi_target : Int
  channels : List LbtChannel
deriving DecidableEq, Repr

/-- The TX gain lookup table (`struct lgw_tx_gain_lut_s`): a fixed backing
array of entries, of which the first `size` are active.  Only the `rf_power`
of each entry is relevant to the limiting logic, so entries are modelled by
their `rf_power`. -/
structure TxLut where
  lut : List Int
  size : Nat
deriving DecidableEq, Repr

/-- The subset of `struct sx130xconf` read and written by `setup_LBT` and
the TX LUT limiting block of `sx130xconf_start`. -/
structure Sx130xconf where
  rfconf : List Rfconf
  ifconf : List Ifconf
  lbt_conf : LbtConf
  txlut : TxLut
deriving DecidableEq, Repr

/-- The CCA region codes that reach `sx130xconf_start` (`J_AS923_1` etc. are
keyword CRCs in the C code; only their identity matters). -/
inductive CcaRegion where
  | AS923_1 | AS923_2 | AS923_3 | AS923_4 | AU915 | KR920 | IN865 | EU868
deriving DecidableEq, Repr

/-- The LBT channel derivation loop of `setup_LBT` (sx1302 branch): iterate
over the first `max(8, LGW_IF_CHAIN_NB)` IF chains; for every enabled chain
whose RF chain is enabled and whose bandwidth code is below `BW_500KHZ`,
append one channel at the chain frequency, as long as the channel table has
room. -/
def deriveLbtChannels (conf : Sx130xconf) : List LbtChannel :=
  (conf.ifconf.take (max 8 LGW_IF_CHAIN_NB)).foldl
    (fun acc ifc =>
      if ifc.enable ∧ acc.length < LGW_LBT_CHANNEL_NB_MAX ∧
         (conf.rfconf.getD ifc.rf_chain ⟨false, 0⟩).enable ∧
         ifc.bandwidth < BW_500KHZ then
        acc ++ [{ freq_hz := ((((conf.rfconf.getD ifc.rf_chain ⟨false, 0⟩).freq_hz : Int)
                    + ifc.freq_hz) % (2 ^ 32 : Int)).toNat
                  bandwidth := ifc.bandwidth
                  scan_time_us := 0
                  transmit_time_ms := 0 }]
      else acc)
    []

/-- `setup_LBT` from `sx130xconf.c` (sx1302 branch): for region AS923-1 the
scan time is 5000 us and the RSSI target -80 dBm, for KR920 5000 us and
-67 dBm, any other region fails.  If no LBT channel list was supplied, one is
derived from the uplink channels; every channel's scan time and dwell limit
are then set and LBT is enabled.  The concluding `lgw_sx1261_setconf` HAL
call always succeeds in the simulation HAL and is modelled as succeeding. -/
def setup_LBT (conf : Sx130xconf) (cca_region : CcaRegion) : Option Sx130xconf :=
  match
    (match cca_region with
      | .AS923_1 => some ((5000 : Nat), (-80 : Int))
      | .KR920 => some ((5000 : Nat), (-67 : Int))
      | _ => none) with
  | none => none
  | some (scantime_us, rssi_target) =>
    let chans :=
      if conf.lbt_conf.channels.isEmpty then deriveLbtChannels conf
      else conf.lbt_conf.channels
    let chans := chans.map fun c =>
      { c with scan_time_us := scantime_us, transmit_time_ms := TX_DWELLTIME_LBT }
    some { conf with
            lbt_conf := { enable := true, rssi_target := rssi_target,
                          channels := chans } }

/-- Whether `sx130xconf_start` limits the TX gain LUT for this CCA region
(the `switch(cca_region)` at the top of `sx130xconf_start`). -/
def limitLutRegion : CcaRegion → Bool
  | .AS923_1 | .AS923_2 | .AS923_3 | .AS923_4 | .AU915 => true
  | _ => false

/-- The TX gain LUT limiting block of `sx130xconf_start`: for the AS923
variants and AU915, count the active entries whose `rf_power` exceeds 26 and
shrink the active size by that count; the backing array is untouched.  For
every other region (or no CCA region) the LUT is unchanged. -/
def limitLut (conf : Sx130xconf) (cca_region : Option CcaRegion) : Sx130xconf :=
  match cca_region with
  | some r =>
    if limitLutRegion r then
      let extra_entries :=
        ((conf.txlut.lut.take conf.txlut.size).filter (fun p => p > 26)).length
      { conf with txlut := { conf.txlut with size := conf.txlut.size - extra_entries } }
    else conf
  | none => conf

/-- `sx130xconf_start` from `sx130xconf.c`, restricted to the configuration
transformations it performs (the HAL calls `lgw_board_setconf`,
`lgw_txgain_setconf`, `lgw_rxrf_setconf`, `lgw_rxif_setconf`, `lgw_start`
and the GPS enable always succeed in the simulation HAL and are modelled as
succeeding): the TX LUT is limited for the AS923/AU915 regions, then, if a
CCA region is set, `setup_LBT` must succeed or the start fails. -/
def sx130xconf_start (conf : Sx130xconf) (cca_region : Option CcaRegion) :
    Option Sx130xconf :=
  let conf := limitLut conf cca_region
  match cca_region with
  | some r => setup_LBT conf r
  | none => some conf

/-- A concrete AS923-1-style configuration used as witness input: two RF
chains at 923.0/923.6 MHz, eight multi-SF 125 kHz chains, one 500 kHz fast
LoRa chain, FSK disabled, no LNS-supplied LBT channels, and a five-entry TX
gain LUT with two entries above 26 dBm. -/
def testConf : Sx130xconf :=
  { rfconf := [⟨true, 923000000⟩, ⟨true, 923600000⟩]
    ifconf :=
      [⟨true, 0, -200000, BW_125KHZ⟩, ⟨true, 0, 0, BW_125KHZ⟩,
       ⟨true, 0, 200000, BW_125KHZ⟩, ⟨true, 0, 400000, BW_125KHZ⟩,
       ⟨true, 1, -300000, BW_125KHZ⟩, ⟨true, 1, -100000, BW_125KHZ⟩,
       ⟨true, 1, 100000, BW_125KHZ⟩, ⟨true, 1, 300000, BW_125KHZ⟩,
       ⟨true, 0, 300000, BW_500KHZ⟩, ⟨false, 0, 0, BW_UNDEFINED⟩]
    lbt_conf := { enable := false, rssi_target := 0, channels := [] }
    txlut := { lut := [12, 20, 25, 27, 28], size := 5 } }

/-- The LBT channel derived for one IF chain: the chain frequency (RF centre
frequency plus signed IF offset, as an unsigned 32-bit value) and the chain
bandwidth; scan time and dwell limit are filled in later by `setup_LBT`. -/
def lbtChanOf (conf : Sx130xconf) (ifc : Ifconf) : LbtChannel :=
  { freq_hz := ((((conf.rfconf.getD ifc.rf_chain ⟨false, 0⟩).freq_hz : Int)
      + ifc.freq_hz) % (2 ^ 32 : Int)).toNat
    bandwidth := ifc.bandwidth
    scan_time_us := 0
    transmit_time_ms := 0 }

/-- Whether the LBT derivation keeps an IF chain: chain enabled, its RF
chain enabled, bandwidth code below `BW_500KHZ`. -/
def lbtKeep (conf : Sx130xconf) (ifc : Ifconf) : Bool :=
  ifc.enable && (conf.rfconf.getD ifc.rf_chain ⟨false, 0⟩).enable &&
    decide (ifc.bandwidth < BW_500KHZ)

/- ========================================================================
   Part 4: tcpb.c — TC protocol format negotiation
   ======================================================================== -/

/-- The TC protocol format (`TCPROTO_JSON` / `TCPROTO_PROTOBUF` of
`tcpb.h`). -/
inductive TcProto where
  | json | protobuf
deriving DecidableEq, Repr

/-- Initial value of the global `tcpb_protocol_format` in `tcpb.c` (also
restored by `tcpb_ini`). -/
def tcpb_protocol_format_init : TcProto := .json

/-- `tcpb_setFormat` from `tcpb.c`: the resulting value of the global
`tcpb_protocol_format`.  The format becomes protobuf iff the argument is a
non-NULL string equal to `"protobuf"`; every other input (including
`"json"`, unknown strings and NULL) resets it to JSON.  NULL is modelled as
`none`. -/
def tcpb_setFormat (format : Option String) : TcProto :=
  match format with
  | some s => if s = "protobuf" then .protobuf else .json
  | none => .json

/-- `tcpb_enabled` from `tcpb.h`: true iff the current format is
protobuf. -/
def tcpb_enabled (f : TcProto) : Bool := f = .protobuf

/- ========================================================================
   Part 5: protobuf wire codec for the downlink message
   ======================================================================== -/

/-- Modelled from the spec: protobuf base-128 varint encoding (the nanopb
`pb_encode` varint, not among the provided sources), with an explicit fuel
of 10 bytes — enough for every value below `2 ^ 70`, in particular for all
64-bit values. -/
def encVarintF : Nat → Nat → List Nat
  | 0, n => [n % 128]
  | fuel + 1, n => if n < 128 then [n] else (128 + n % 128) :: encVarintF fuel (n / 128)

/-- Protobuf varint encoding of a value below `2 ^ 64`. -/
def encVarint (n : Nat) : List Nat := encVarintF 9 n

/-- Modelled from the spec: protobuf varint decoding; returns the value and
the unconsumed tail. -/
def decVarint : List Nat → Option (Nat × List Nat)
  | [] => none
  | b :: rest =>
    if b < 128 then some (b, rest)
    else
      match decVarint rest with
      | some (v, rest') => some (v * 128 + (b - 128), rest')
      | none => none

/-- Little-endian fixed-width encoding of `k` bytes (protobuf `fixed64` for
`k = 8`). -/
def encLE : Nat → Nat → List Nat
  | 0, _ => []
  | k + 1, n => n % 256 :: encLE k (n / 256)

/-- Little-endian fixed-width decoding of `k` bytes. -/
def decLE : Nat → List Nat → Option (Nat × List Nat)
  | 0, bs => some (0, bs)
  | _ + 1, [] => none
  | k + 1, b :: rest =>
    match decLE k rest with
    | some (v, rest') => some (v * 256 + b, rest')
    | none => none

/-- Signed 64-bit value carried on the wire as its two's complement varint
(protobuf `int64`). -/
def encInt64 (v : Int) : List Nat := encVarint (v % (2 ^ 64 : Int)).toNat

/-- Signed interpretation of a decoded 64-bit varint value. -/
def fromU64 (u : Nat) : Int :=
  if u < 2 ^ 63 then (u : Int) else (u : Int) - 2 ^ 64

/-- Protobuf field tag: varint of `field_number * 8 + wire_type`. -/
def encTag (fieldNum wireType : Nat) : List Nat := encVarint (fieldNum * 8 + wireType)

/-- The decoded downlink message `tcpb_dnmsg_t` of `tcpb.h`: the fields
`tcpb_decode` copies out of the protobuf `DownlinkMessage`.  The fields
`dclass`, `rxdelay`, `rx1dr`, `rx2dr`, `priority` and `dr` are `u1_t`
(bytes) in the C struct; they are held as `Nat` here and the decoder applies
the narrowing `% 256` of the `(u1_t)` copy.  `muxtime` is a `double` on the
wire (`fixed64`); it is modelled by its 64-bit bit pattern. -/
structure Dnmsg where
  deveui : Nat
  dclass : Nat
  diid : Int
  pdu : List Nat
  rxdelay : Nat
  rx1dr : Nat
  rx1freq : Nat
  rx2dr : Nat
  rx2freq : Nat
  priority : Nat
  xtime : Int
  rctx : Int
  gpstime : Int
  dr : Nat
  freq : Nat
  muxtime : Nat
deriving DecidableEq, Repr

/-- The all-zero downlink message (nanopb `init_zero`). -/
def Dnmsg.zero : Dnmsg :=
  { deveui := 0, dclass := 0, diid := 0, pdu := [], rxdelay := 0, rx1dr := 0,
    rx1freq := 0, rx2dr := 0, rx2freq := 0, priority := 0, xtime := 0,
    rctx := 0, gpstime := 0, dr := 0, freq := 0, muxtime := 0 }

/-- Modelled from the spec: the LNS-side protobuf encoding of the
`DownlinkMessage` body, following the schema of the protobuf TC protocol
design document (field numbers 1..16) and the hand-built test message of
`selftest_tcpb` (`dev_eui` as `fixed64`, the remaining integers as varints,
`pdu` length-delimited, `mux_time` as a `fixed64` double bit pattern). -/
def encDnmsgBody (m : Dnmsg) : List Nat :=
  encTag 1 1 ++ (encLE 8 m.deveui ++
  (encTag 2 0 ++ (encVarint m.dclass ++
  (encTag 3 0 ++ (encInt64 m.diid ++
  (encTag 4 2 ++ (encVarint m.pdu.length ++ (m.pdu ++
  (encTag 5 0 ++ (encVarint m.rxdelay ++
  (encTag 6 0 ++ (encVarint m.rx1dr ++
  (encTag 7 0 ++ (encVarint m.rx1freq ++
  (encTag 8 0 ++ (encVarint m.rx2dr ++
  (encTag 9 0 ++ (encVarint m.rx2freq ++
  (encTag 10 0 ++ (encVarint m.priority ++
  (encTag 11 0 ++ (encInt64 m.xtime ++
  (encTag 12 0 ++ (encInt64 m.rctx ++
  (encTag 13 0 ++ (encInt64 m.gpstime ++
  (encTag 14 0 ++ (encVarint m.dr ++
  (encTag 15 0 ++ (encVarint m.freq ++
  (encTag 16 1 ++ encLE 8 m.muxtime)))))))))))))))))))))))))))))))

/-- Modelled from the spec: the LNS-side encoding of the `TcMessage` wrapper
for a downlink message: field 1 (`type`) carries `MSG_DNMSG = 10` as a
varint, field 10 (`dnmsg`) carries the length-delimited body. -/
def tcpb_encDnmsg (m : Dnmsg) : List Nat :=
  encTag 1 0 ++ (encVarint 10 ++
  (encTag 10 2 ++ (encVarint (encDnmsgBody m).length ++ encDnmsgBody m)))

/-- Modelled from the spec: the field loop of the protobuf decoder (nanopb
`pb_decode` specialised to `DownlinkMessage`, whose decoded fields
`tcpb_decode` copies into `tcpb_dnmsg_t`): read a tag varint, dispatch on
the tag, store the field value — narrowing it mod 256 for the `u1_t`
destination fields of `tcpb_dnmsg_t`, as the `(u1_t)` casts of the copy in
`tcpb_decode` do — and repeat until the submessage bytes are exhausted.  The fuel argument bounds the number of fields and makes the
recursion structural; the top-level decoder passes the byte count, which is
always sufficient since every field consumes at least one byte. -/
def decDnmsgFields : Nat → List Nat → Dnmsg → Option Dnmsg
  | 0, bs, m => if bs = [] then some m else none
  | fuel + 1, bs, m =>
    if bs = [] then some m
    else
      match decVarint bs with
      | none => none
      | some (tag, rest) =>
        if tag = 9 then
          match decLE 8 rest with
          | some (v, rest2) => decDnmsgFields fuel rest2 { m with deveui := v }
          | none => none
        else if tag = 16 then
          match decVarint rest with
          | some (v, rest2) => decDnmsgFields fuel rest2 { m with dclass := v % 256 }
          | none => none
        else if tag = 24 then
          match decVarint rest with
          | some (v, rest2) => decDnmsgFields fuel rest2 { m with diid := fromU64 v }
          | none => none
        else if tag = 34 then
          match decVarint rest with
          | some (len, rest2) =>
            if rest2.length < len then none
            else decDnmsgFields fuel (rest2.drop len) { m with pdu := rest2.take len }
          | none => none
        else if tag = 40 then
          match decVarint rest with
          | some (v, rest2) => decDnmsgFields fuel rest2 { m with rxdelay := v % 256 }
          | none => none
        else if tag = 48 then
          match decVarint rest with
          | some (v, rest2) => decDnmsgFields fuel rest2 { m with rx1dr := v % 256 }
          | none => none
        else if tag = 56 then
          match decVarint rest with
          | some (v, rest2) => decDnmsgFields fuel rest2 { m with rx1freq := v }
          | none => none
        else if tag = 64 then
          match decVarint rest with
          | some (v, rest2) => decDnmsgFields fuel rest2 { m with rx2dr := v % 256 }
          | none => none
        else if tag = 72 then
          match decVarint rest with
          | some (v, rest2) => decDnmsgFields fuel rest2 { m with rx2freq := v }
          | none => none
        else if tag = 80 then
          match decVarint rest with
          | some (v, rest2) => decDnmsgFields fuel rest2 { m with priority := v % 256 }
          | none => none
        else if tag = 88 then
          match decVarint rest with
          | some (v, rest2) => decDnmsgFields fuel rest2 { m with xtime := fromU64 v }
          | none => none
        else if tag = 96 then
          match decVarint rest with
          | some (v, rest2) => decDnmsgFields fuel rest2 { m with rctx := fromU64 v }
          | none => none
        else if tag = 104 then
          match decVarint rest with
          | some (v, rest2) => decDnmsgFields fuel rest2 { m with gpstime := fromU64 v }
          | none => none
        else if tag = 112 then
          match decVarint rest with
          | some (v, rest2) => decDnmsgFields fuel rest2 { m with dr := v % 256 }
          | none => none
        else if tag = 120 then
          match decVarint rest with
          | some (v, rest2) => decDnmsgFields fuel rest2 { m with freq := v }
          | none => none
        else if tag = 129 then
          match decLE 8 rest with
          | some (v, rest2) => decDnmsgFields fuel rest2 { m with muxtime := v }
          | none => none
        else none

/-- Modelled from the spec: `tcpb_decode` for a downlink message: decode the
`TcMessage` wrapper (field 1 carrying type `MSG_DNMSG = 10`, then field 10
with the length-delimited `dnmsg` submessage) and then the submessage
fields, starting from the all-zero message. -/
def tcpb_decode (bs : List Nat) : Option Dnmsg :=
  match decVarint bs with
  | none => none
  | some (tag1, r1) =>
    if tag1 ≠ 8 then none
    else
      match decVarint r1 with
      | none => none
      | some (mtype, r2) =>
        if mtype ≠ 10 then none
        else
          match decVarint r2 with
          | none => none
          | some (tag10, r3) =>
            if tag10 ≠ 82 then none
            else
              match decVarint r3 with
              | none => none
              | some (len, r4) =>
                if r4.length < len then none
                else decDnmsgFields len (r4.take len) Dnmsg.zero

/-- The downlink message of `test_decode_dnmsg_basic` in `selftest_tcpb`
(extended with the remaining fields at their zero defaults). -/
def testDnmsg : Dnmsg :=
  { Dnmsg.zero with
    deveui := 0x0102030405060708
    diid := 123456
    pdu := [0x60, 0x01, 0x02, 0x03, 0x04]
    rxdelay := 1
    rx1dr := 5
    rx1freq := 868100000 }

/- ========================================================================
   Part 6: PPS loss recovery (timesync.c, SX1302/SX1303)
   ======================================================================== -/

/-- `NO_PPS_RESET_THRES` of `timesync.c`: seconds without PPS before a GPS
reset is attempted. -/
def NO_PPS_RESET_THRES : Nat := 90
/-- Reset retry interval in seconds. -/
def PPS_RESET_RETRY_SECS : Nat := 5
/-- `NO_PPS_RESET_FAIL_THRES` of `timesync.c`: reset attempts before the
process is forced to restart. -/
def NO_PPS_RESET_FAIL_THRES : Nat := 6

/-- The externally visible action of one second of the PPS monitor:
`idle` (keep operating), `resetGps` (invoke the HAL GPS enable toggle
`sx1302_gps_enable(false)` then `sx1302_gps_enable(true)` and keep
operating), or `exitRestart` (exit the process with a nonzero code so the
supervisor restarts it). -/
inductive PpsAction where
  | idle | resetGps | exitRestart
deriving DecidableEq, Repr

/-- State of the PPS monitor: seconds since the last valid PPS pulse and the
number of reset attempts since then. -/
structure PpsState where
  noPpsSecs : Nat
  resetAttempts : Nat
deriving DecidableEq, Repr

/-- The fresh PPS monitor state. -/
def PpsState.init : PpsState := { noPpsSecs := 0, resetAttempts := 0 }

/-- Modelled from the spec: one second of the PPS monitor of `timesync.c`
(the file is not among the provided sources; behaviour per the GPS/PPS
recovery document).  A valid PPS pulse clears both counters.  Without PPS,
once `NO_PPS_RESET_THRES` (90) seconds have elapsed a GPS reset is attempted
and re-attempted every `PPS_RESET_RETRY_SECS` (5) seconds; when
`NO_PPS_RESET_FAIL_THRES` (6) resets have already failed, the process exits
instead. -/
def ppsStep (s : PpsState) (ppsValid : Bool) : PpsState × PpsAction :=
  if ppsValid then (PpsState.init, .idle)
  else
    let t := s.noPpsSecs + 1
    if NO_PPS_RESET_THRES ≤ t ∧ (t - NO_PPS_RESET_THRES) % PPS_RESET_RETRY_SECS = 0 then
      if NO_PPS_RESET_FAIL_THRES ≤ s.resetAttempts then
        ({ noPpsSecs := t, resetAttempts := s.resetAttempts }, .exitRestart)
      else
        ({ noPpsSecs := t, resetAttempts := s.resetAttempts + 1 }, .resetGps)
    else ({ noPpsSecs := t, resetAttempts := s.resetAttempts }, .idle)

/-- Run the PPS monitor over a sequence of seconds (one input per second,
`true` = valid PPS seen in that second), collecting the actions. -/
def ppsRun (s : PpsState) : List Bool → PpsState × List PpsAction
  | [] => (s, [])
  | b :: rest =>
    let (s', a) := ppsStep s b
    let (s'', as) := ppsRun s' rest
    (s'', a :: as)

/- ========================================================================
   Theorems
   ======================================================================== -/

/-- Unfolding of the uplink DR lookup for in-range indices in asymmetric
mode. -/
theorem s2e_dr2rps_up_asym (ctx : S2ctx) (dr : Nat) (h : dr < DR_CNT)
    (hasym : ctx.asymmetric_drs = true) :
    s2e_dr2rps_up ctx dr = ctx.dr_defs_up dr := by
  simp [s2e_dr2rps_up, Nat.not_le.mpr h, hasym]

/-- Claim C1: in asymmetric DR mode, the 125 kHz channel-plan predicate
`s2e_test_any125kHz` returns true if and only if the uplink table
`dr_defs_up` holds a defined (non-illegal, non-FSK) 125 kHz entry at some
index in `[minDR, maxDR]`, and the legacy symmetric table `dr_defs` has no
influence on the result. -/
theorem any125kHz_asymmetric_spec (ctx : S2ctx) (minDR maxDR : Nat)
    (hasym : ctx.asymmetric_drs = true) (hmax : maxDR ≤ 15) :
    (s2e_test_any125kHz ctx minDR maxDR = true ↔
      ∃ dr, minDR ≤ dr ∧ dr ≤ maxDR ∧ ∃ sf, ctx.dr_defs_up dr = .lora sf 125)
    ∧ ∀ legacy : Nat → Rps,
        s2e_test_any125kHz { ctx with dr_defs := legacy } minDR maxDR =
          s2e_test_any125kHz ctx minDR maxDR := by
  constructor
  · rw [s2e_test_any125kHz, List.any_eq_true]
    constructor
    · rintro ⟨dr, hmem, hpred⟩
      rw [List.mem_range'_1] at hmem
      have hdr : dr ≤ maxDR := by omega
      have hlt : dr < DR_CNT := by simp only [DR_CNT]; omega
      rw [s2e_dr2rps_up_asym ctx dr hlt hasym] at hpred
      simp only [Bool.and_eq_true, decide_eq_true_eq] at hpred
      obtain ⟨hfsk, hbw⟩ := hpred
      refine ⟨dr, by omega, hdr, ?_⟩
      cases hdefs : ctx.dr_defs_up dr with
      | illegal => rw [hdefs] at hbw; simp [rps_bw] at hbw
      | fsk => rw [hdefs] at hfsk; simp at hfsk
      | lora sf bw =>
        rw [hdefs] at hbw
        simp only [rps_bw] at hbw
        exact ⟨sf, by rw [hbw]⟩
    · rintro ⟨dr, hlo, hhi, sf, hdefs⟩
      refine ⟨dr, List.mem_range'_1.mpr ⟨hlo, by omega⟩, ?_⟩
      have hlt : dr < DR_CNT := by simp only [DR_CNT]; omega
      rw [s2e_dr2rps_up_asym ctx dr hlt hasym, hdefs]
      simp [rps_bw]
  · intro legacy
    simp only [s2e_test_any125kHz]
    congr 1
    funext dr
    by_cases hlt : dr < DR_CNT
    · simp [s2e_dr2rps_up, Nat.not_le.mpr hlt, hasym]
    · simp [s2e_dr2rps_up, Nat.le_of_not_lt hlt]

/-- Witness for claim C1: the US915 RP002-1.0.5 asymmetric test
configuration over the DR range `[0, 8]` contains a 125 kHz uplink DR, while
the buggy legacy-table predicate misses it. -/
theorem any125kHz_asymmetric_spec_witness :
    s2e_test_any125kHz asymCtx 0 8 = true ∧
    test_any125kHz_buggy asymCtx 0 8 = false :=
  ⟨((any125kHz_asymmetric_spec asymCtx 0 8 rfl (by decide)).1).mpr
      ⟨0, Nat.le_refl 0, by decide, 10, rfl⟩,
    by decide⟩

/-- Claim C2: the DR-to-radio-parameter mappings consult the correct table:
out-of-range DR indices map to `RPS_ILLEGAL`; in asymmetric mode the uplink
mapping reads `dr_defs_up` and the downlink mapping reads `dr_defs_dn`; in
symmetric mode both read the legacy `dr_defs`. -/
theorem dr2rps_up_dn_tables (ctx : S2ctx) (dr : Nat) :
    (16 ≤ dr →
      s2e_dr2rps_up ctx dr = .illegal ∧ s2e_dr2rps_dn ctx dr = .illegal)
    ∧ (dr < 16 → ctx.asymmetric_drs = true →
      s2e_dr2rps_up ctx dr = ctx.dr_defs_up dr ∧
      s2e_dr2rps_dn ctx dr = ctx.dr_defs_dn dr)
    ∧ (dr < 16 → ctx.asymmetric_drs = false →
      s2e_dr2rps_up ctx dr = ctx.dr_defs dr ∧
      s2e_dr2rps_dn ctx dr = ctx.dr_defs dr) := by
  refine ⟨fun h => ?_, fun h hasym => ?_, fun h hasym => ?_⟩
  · constructor <;> simp [s2e_dr2rps_up, s2e_dr2rps_dn, DR_CNT, h]
  · constructor <;> simp [s2e_dr2rps_up, s2e_dr2rps_dn, DR_CNT, Nat.not_le.mpr h, hasym]
  · constructor <;> simp [s2e_dr2rps_up, s2e_dr2rps_dn, DR_CNT, Nat.not_le.mpr h, hasym]

/-- Witness for claim C2: at the asymmetric US915 test context, DR 20 maps
to `RPS_ILLEGAL` in both directions, and DR 0 maps to SF10/125 kHz uplink
but SF5/500 kHz downlink. -/
theorem dr2rps_up_dn_tables_witness :
    (s2e_dr2rps_up asymCtx 20 = .illegal ∧ s2e_dr2rps_dn asymCtx 20 = .illegal)
    ∧ s2e_dr2rps_up asymCtx 0 = .lora 10 125
    ∧ s2e_dr2rps_dn asymCtx 0 = .lora 5 500 :=
  ⟨(dr2rps_up_dn_tables asymCtx 20).1 (by decide),
    ((dr2rps_up_dn_tables asymCtx 0).2.1 (by decide) rfl).1.trans rfl,
    ((dr2rps_up_dn_tables asymCtx 0).2.1 (by decide) rfl).2.trans rfl⟩

/-- Evaluation of the frame parser on a rejoin-type frame (MHdr type bits
`0xC0`, major version v1.0): the result depends only on the length. -/
theorem parse_rejoin_eval (euiFilter : List (Nat × Nat)) (netidFilter : Nat)
    (mhdr : Nat) (rest : List Nat)
    (hftype : mhdr &&& 0xE0 = 0xC0) (hmajor : mhdr &&& 0x03 = 0) :
    s2e_parse_lora_frame euiFilter netidFilter (mhdr :: rest) =
      if (mhdr :: rest).length < 12 then none
      else if (mhdr :: rest).length < 19 ∨ (mhdr :: rest).length > 24 then none
      else some (.rejoin mhdr (hexStr (mhdr :: rest))
        (toS32 (rlsbf 4 ((mhdr :: rest).length - 4) (mhdr :: rest)))) := by
  simp only [s2e_parse_lora_frame, hftype, hmajor]
  norm_num

/-- Claim C3: a rejoin request (MHdr type bits `0xC0`) of length 19..24 is
emitted as a `rejoin` message carrying the MHdr byte, the hex encoding of
the entire frame as `pdu`, and the last four bytes read as a little-endian
signed 32-bit MIC; the JoinEUI and NetID filters have no influence; any
other length is dropped. -/
theorem rejoin_raw_pdu_spec (euiFilter : List (Nat × Nat)) (netidFilter : Nat)
    (mhdr : Nat) (rest : List Nat)
    (hftype : mhdr &&& 0xE0 = 0xC0) (hmajor : mhdr &&& 0x03 = 0) :
    (19 ≤ (mhdr :: rest).length ∧ (mhdr :: rest).length ≤ 24 →
      s2e_parse_lora_frame euiFilter netidFilter (mhdr :: rest) =
        some (.rejoin mhdr (hexStr (mhdr :: rest))
          (toS32 (rlsbf 4 ((mhdr :: rest).length - 4) (mhdr :: rest)))))
    ∧ ((mhdr :: rest).length < 19 ∨ (mhdr :: rest).length > 24 →
      s2e_parse_lora_frame euiFilter netidFilter (mhdr :: rest) = none)
    ∧ (∀ (f' : List (Nat × Nat)) (n' : Nat),
        s2e_parse_lora_frame f' n' (mhdr :: rest) =
          s2e_parse_lora_frame euiFilter netidFilter (mhdr :: rest)) := by
  refine ⟨fun hlen => ?_, fun hlen => ?_, fun f' n' => ?_⟩
  · rw [parse_rejoin_eval euiFilter netidFilter mhdr rest hftype hmajor]
    rw [if_neg (by omega), if_neg (by omega)]
  · rw [parse_rejoin_eval euiFilter netidFilter mhdr rest hftype hmajor]
    rcases Nat.lt_or_ge (mhdr :: rest).length 12 with h | h
    · rw [if_pos h]
    · rw [if_neg (by omega), if_pos (by omega)]
  · rw [parse_rejoin_eval f' n' mhdr rest hftype hmajor,
      parse_rejoin_eval euiFilter netidFilter mhdr rest hftype hmajor]

/-- Witness for claim C3: the 19-byte rejoin type 0 frame of `selftest_lora`
is emitted as a raw-PDU rejoin message with `MHdr = 192` and
`MIC = -1549622880` even under the blocking JoinEUI filter, and truncating
it to 18 bytes drops it. -/
theorem rejoin_raw_pdu_spec_witness :
    s2e_parse_lora_frame euiFilter1 0xFFFFFFFFFFFFFFFFFFFFFFFFFFFFFFFF rejoin0Frame =
      some (.rejoin 192 "C000010203F1E3F5E7F9EBFDEF1020A0A1A2A3" (-1549622880)) ∧
    s2e_parse_lora_frame euiFilter1 0xFFFFFFFFFFFFFFFFFFFFFFFFFFFFFFFF
      (rejoin0Frame.take 18) = none := by
  constructor
  · have h := (rejoin_raw_pdu_spec euiFilter1 0xFFFFFFFFFFFFFFFFFFFFFFFFFFFFFFFF
      0xC0 (rejoin0Frame.drop 1) (by decide) (by decide)).1 (by decide)
    exact h.trans (by decide)
  · have h := (rejoin_raw_pdu_spec euiFilter1 0xFFFFFFFFFFFFFFFFFFFFFFFFFFFFFFFF
      0xC0 ((rejoin0Frame.take 18).drop 1) (by decide) (by decide)).2.1 (by decide)
    exact h

/-- Characterization of the JoinEUI filter check. -/
theorem joineuiPass_iff (filter : List (Nat × Nat)) (eui : Nat) :
    joineuiPass filter eui = true ↔
      filter = [] ∨ ∃ p ∈ filter, p.1 ≤ eui ∧ eui ≤ p.2 := by
  simp [joineuiPass, List.isEmpty_iff, List.any_eq_true]

/-- Evaluation of the frame parser on a join-request frame (MHdr type bits
`0x00`, major version v1.0). -/
theorem parse_jreq_eval (euiFilter : List (Nat × Nat)) (netidFilter : Nat)
    (mhdr : Nat) (rest : List Nat)
    (hftype : mhdr &&& 0xE0 = 0x00) (hmajor : mhdr &&& 0x03 = 0) :
    s2e_parse_lora_frame euiFilter netidFilter (mhdr :: rest) =
      if (mhdr :: rest).length < 12 then none
      else if (mhdr :: rest).length ≠ 23 then none
      else if joineuiPass euiFilter (rlsbf 8 1 (mhdr :: rest)) then
        some (.jreq mhdr (euiStr (rlsbf 8 1 (mhdr :: rest)))
          (euiStr (rlsbf 8 9 (mhdr :: rest))) (rlsbf 2 17 (mhdr :: rest))
          (toS32 (rlsbf 4 ((mhdr :: rest).length - 4) (mhdr :: rest))))
      else none := by
  simp only [s2e_parse_lora_frame, hftype, hmajor]
  norm_num

/-- Claim C4: a join request (MHdr type bits `0x00`) is accepted only at
length exactly 23; with no JoinEUI filter ranges every join request passes,
with ranges it is kept iff `lo ≤ JoinEUI ≤ hi` for some range; on the
concrete selftest frame the emitted message carries
`JoinEui EF-CD-AB-89-67-45-23-01`, `DevEui EF-FD-EB-F9-E7-F5-E3-F1`,
`DevNonce 61936` and `MIC -1549622880`. -/
theorem jreq_filter_spec (euiFilter : List (Nat × Nat)) (netidFilter : Nat)
    (mhdr : Nat) (rest : List Nat)
    (hftype : mhdr &&& 0xE0 = 0x00) (hmajor : mhdr &&& 0x03 = 0) :
    ((mhdr :: rest).length ≠ 23 →
      s2e_parse_lora_frame euiFilter netidFilter (mhdr :: rest) = none)
    ∧ ((mhdr :: rest).length = 23 →
      ((euiFilter = [] ∨ ∃ p ∈ euiFilter,
          p.1 ≤ rlsbf 8 1 (mhdr :: rest) ∧ rlsbf 8 1 (mhdr :: rest) ≤ p.2) →
        s2e_parse_lora_frame euiFilter netidFilter (mhdr :: rest) =
          some (.jreq mhdr (euiStr (rlsbf 8 1 (mhdr :: rest)))
            (euiStr (rlsbf 8 9 (mhdr :: rest))) (rlsbf 2 17 (mhdr :: rest))
            (toS32 (rlsbf 4 19 (mhdr :: rest)))))
      ∧ (¬(euiFilter = [] ∨ ∃ p ∈ euiFilter,
          p.1 ≤ rlsbf 8 1 (mhdr :: rest) ∧ rlsbf 8 1 (mhdr :: rest) ≤ p.2) →
        s2e_parse_lora_frame euiFilter netidFilter (mhdr :: rest) = none))
    ∧ s2e_parse_lora_frame [] 0 jreqFrame =
        some (.jreq 0 "EF-CD-AB-89-67-45-23-01" "EF-FD-EB-F9-E7-F5-E3-F1"
          61936 (-1549622880)) := by
  refine ⟨fun hlen => ?_, fun hlen => ⟨fun hpass => ?_, fun hfail => ?_⟩, by decide⟩
  · rw [parse_jreq_eval euiFilter netidFilter mhdr rest hftype hmajor]
    rcases Nat.lt_or_ge (mhdr :: rest).length 12 with h | h
    · rw [if_pos h]
    · rw [if_neg (by omega), if_pos hlen]
  · rw [parse_jreq_eval euiFilter netidFilter mhdr rest hftype hmajor,
      if_neg (by omega), if_neg (by omega),
      if_pos ((joineuiPass_iff _ _).mpr hpass), hlen]
  · rw [parse_jreq_eval euiFilter netidFilter mhdr rest hftype hmajor,
      if_neg (by omega), if_neg (by omega),
      if_neg (fun h => hfail ((joineuiPass_iff _ _).mp h))]

/-- Witness for claim C4: on the selftest join request, the blocking filter
`euiFilter1` drops the frame, the passing filter `euiFilter2` keeps it, and
a truncated 22-byte frame is dropped. -/
theorem jreq_filter_spec_witness :
    s2e_parse_lora_frame euiFilter1 0 jreqFrame = none ∧
    s2e_parse_lora_frame euiFilter2 0 jreqFrame =
      some (.jreq 0 "EF-CD-AB-89-67-45-23-01" "EF-FD-EB-F9-E7-F5-E3-F1"
        61936 (-1549622880)) ∧
    s2e_parse_lora_frame [] 0 (jreqFrame.take 22) = none := by
  refine ⟨?_, ?_, ?_⟩
  · exact ((jreq_filter_spec euiFilter1 0 0x00 (jreqFrame.drop 1) (by decide)
      (by decide)).2.1 (by decide)).2 (by decide)
  · exact (((jreq_filter_spec euiFilter2 0 0x00 (jreqFrame.drop 1) (by decide)
      (by decide)).2.1 (by decide)).1 (by decide)).trans (by decide)
  · exact (jreq_filter_spec [] 0 0x00 ((jreqFrame.take 22).drop 1) (by decide)
      (by decide)).1 (by decide)

/-- Claim C7: a received PHY frame that is shorter than the minimum frame
length (empty, or below the 12-byte data-frame minimum for the
non-raw frame types) or whose MHdr major-version bits are not v1.0 is
dropped: the parser fails, nothing is emitted, and the session only counts
the error — its liveness is unchanged. -/
theorem parse_error_drop_spec (euiFilter : List (Nat × Nat)) (netidFilter : Nat)
    (frame : List Nat) (s : Session)
    (h : frame = []
      ∨ (∃ mhdr rest, frame = mhdr :: rest ∧ mhdr &&& 0x03 ≠ 0)
      ∨ (∃ mhdr rest, frame = mhdr :: rest ∧ mhdr &&& 0x03 = 0 ∧
          mhdr &&& 0xE0 ≠ 0xE0 ∧ mhdr &&& 0xE0 ≠ 0x20 ∧ frame.length < 12)) :
    s2e_parse_lora_frame euiFilter netidFilter frame = none
    ∧ (sessionProcessUplink euiFilter netidFilter s frame).2 = none
    ∧ (sessionProcessUplink euiFilter netidFilter s frame).1.alive = s.alive
    ∧ (sessionProcessUplink euiFilter netidFilter s frame).1.parseErrors
        = s.parseErrors + 1 := by
  have hnone : s2e_parse_lora_frame euiFilter netidFilter frame = none := by
    rcases h with rfl | ⟨mhdr, rest, rfl, hmaj⟩ |
        ⟨mhdr, rest, rfl, hmaj, hprop, hjacc, hshort⟩
    · rfl
    · simp [s2e_parse_lora_frame, hmaj]
    · simp only [s2e_parse_lora_frame, hmaj, hprop, hjacc]
      simp only [List.length_cons] at hshort
      simp [hshort]
  refine ⟨hnone, ?_, ?_, ?_⟩ <;> simp [sessionProcessUplink, hnone]

/-- Witness for claim C7: the two bad frames of `selftest_lora` — a 1-byte
frame and a 16-byte frame with major-version bits `0x03` — are both dropped
while the session stays alive. -/
theorem parse_error_drop_spec_witness :
    (s2e_parse_lora_frame [] 0 [0x00] = none
      ∧ (sessionProcessUplink [] 0 ⟨true, 0⟩ [0x00]).1.alive = true)
    ∧ (s2e_parse_lora_frame [] 0 (0x03 :: List.replicate 15 0x5F) = none
      ∧ (sessionProcessUplink [] 0 ⟨true, 0⟩
          (0x03 :: List.replicate 15 0x5F)).1.alive = true) := by
  have h1 := parse_error_drop_spec [] 0 [0x00] ⟨true, 0⟩
    (Or.inr (Or.inr ⟨0x00, [], rfl, by decide, by decide, by decide, by decide⟩))
  have h2 := parse_error_drop_spec [] 0 (0x03 :: List.replicate 15 0x5F) ⟨true, 0⟩
    (Or.inr (Or.inl ⟨0x03, List.replicate 15 0x5F, rfl, by decide⟩))
  exact ⟨⟨h1.1, h1.2.2.1⟩, ⟨h2.1, h2.2.2.1⟩⟩

/-- Claim C8: the TC protocol format starts as JSON; `tcpb_setFormat` yields
the protobuf codec iff its argument is exactly the string `"protobuf"`, and
JSON for every other input including `"json"`, unknown strings and NULL;
`tcpb_enabled` is true exactly on the protobuf format. -/
theorem tcpb_format_negotiation_spec :
    tcpb_protocol_format_init = .json
    ∧ (∀ fmt : Option String,
        (tcpb_setFormat fmt = .protobuf ↔ fmt = some "protobuf"))
    ∧ tcpb_setFormat none = .json
    ∧ (∀ f : TcProto, tcpb_enabled f = true ↔ f = .protobuf) := by
  refine ⟨rfl, fun fmt => ?_, rfl, fun f => ?_⟩
  · cases fmt with
    | none => simp [tcpb_setFormat]
    | some s =>
      by_cases hs : s = "protobuf" <;> simp [tcpb_setFormat, hs]
  · cases f <;> simp [tcpb_enabled]

/-- Witness for claim C8: the sequence of `test_protocol_format` — setting
`"protobuf"` enables the binary codec, setting `"json"`, `"unknown"` or NULL
falls back to JSON. -/
theorem tcpb_format_negotiation_spec_witness :
    tcpb_setFormat (some "protobuf") = .protobuf
    ∧ tcpb_setFormat (some "json") = .json
    ∧ tcpb_setFormat (some "unknown") = .json
    ∧ tcpb_enabled .protobuf = true
    ∧ tcpb_enabled .json = false := by
  refine ⟨(tcpb_format_negotiation_spec.2.1 (some "protobuf")).mpr rfl, ?_, ?_, ?_, ?_⟩
  · have h := tcpb_format_negotiation_spec.2.1 (some "json")
    cases hv : tcpb_setFormat (some "json") with
    | json => rfl
    | protobuf => exact absurd (h.mp hv) (by decide)
  · have h := tcpb_format_negotiation_spec.2.1 (some "unknown")
    cases hv : tcpb_setFormat (some "unknown") with
    | json => rfl
    | protobuf => exact absurd (h.mp hv) (by decide)
  · exact (tcpb_format_negotiation_spec.2.2.2 .protobuf).mpr rfl
  · rfl

/-- Claim C10: when `sx130xconf_start` runs with a CCA region among
AS923-1..4 and AU915, the active TX gain LUT size shrinks by exactly the
number of active entries whose `rf_power` exceeds 26 dBm — the backing
entries themselves are untouched, so the removal happens at the tail of the
active table no matter which entries exceeded the limit; for every other
region the LUT is unchanged. -/
theorem txlut_limit_spec (conf : Sx130xconf) (r : CcaRegion) :
    (limitLutRegion r = true →
      ((limitLut conf (some r)).txlut.lut = conf.txlut.lut
        ∧ (limitLut conf (some r)).txlut.size =
            conf.txlut.size -
              ((conf.txlut.lut.take conf.txlut.size).filter (fun p => p > 26)).length
        ∧ (limitLut conf (some r)).txlut.lut.take (limitLut conf (some r)).txlut.size =
            (conf.txlut.lut.take conf.txlut.size).take
              (conf.txlut.size -
                ((conf.txlut.lut.take conf.txlut.size).filter (fun p => p > 26)).length))
      ∧ (sx130xconf_start conf (some r)).all
          (fun res => res.txlut = (limitLut conf (some r)).txlut))
    ∧ (limitLutRegion r = false → limitLut conf (some r) = conf) := by
  constructor
  · intro hr
    refine ⟨⟨?_, ?_, ?_⟩, ?_⟩
    · simp [limitLut, hr]
    · simp [limitLut, hr]
    · simp only [limitLut, hr, if_pos]
      rw [List.take_take]
      congr 1
      omega
    · simp only [sx130xconf_start]
      cases hres : setup_LBT (limitLut conf (some r)) r with
      | none => simp
      | some res =>
        simp only [Option.all_some, decide_eq_true_eq]
        cases r <;> simp_all [setup_LBT] <;>
          (try (obtain ⟨rfl⟩ := hres)) <;> rfl
  · intro hr
    simp [limitLut, hr]

/-- Witness for claim C10: on the witness configuration (five active LUT
entries `[12, 20, 25, 27, 28]`, two of them above 26 dBm), region AU915
shrinks the active size to 3 with the entries untouched, while region EU868
leaves the LUT unchanged. -/
theorem txlut_limit_spec_witness :
    ((limitLut testConf (some .AU915)).txlut.lut = testConf.txlut.lut
      ∧ (limitLut testConf (some .AU915)).txlut.size = 3)
    ∧ limitLut testConf (some .EU868) = testConf := by
  have h := (txlut_limit_spec testConf .AU915).1 (by decide)
  have h2 := (txlut_limit_spec testConf .EU868).2 (by decide)
  exact ⟨⟨h.1.1, h.1.2.1.trans (by decide)⟩, h2⟩

/-- The LBT derivation fold appends exactly the kept chains, as long as the
channel table capacity is never reached. -/
theorem lbtFold_eq (conf : Sx130xconf) :
    ∀ (l : List Ifconf) (acc : List LbtChannel),
      acc.length + l.length ≤ LGW_LBT_CHANNEL_NB_MAX →
      l.foldl
        (fun acc ifc =>
          if ifc.enable ∧ acc.length < LGW_LBT_CHANNEL_NB_MAX ∧
             (conf.rfconf.getD ifc.rf_chain ⟨false, 0⟩).enable ∧
             ifc.bandwidth < BW_500KHZ then
            acc ++ [{ freq_hz := ((((conf.rfconf.getD ifc.rf_chain ⟨false, 0⟩).freq_hz : Int)
                        + ifc.freq_hz) % (2 ^ 32 : Int)).toNat
                      bandwidth := ifc.bandwidth
                      scan_time_us := 0
                      transmit_time_ms := 0 }]
          else acc)
        acc
        = acc ++ (l.filter (lbtKeep conf)).map (lbtChanOf conf)
  | [], acc => by simp
  | c :: tl, acc => by
    intro hle
    simp only [List.length_cons] at hle
    by_cases hp : c.enable = true ∧
        (conf.rfconf.getD c.rf_chain ⟨false, 0⟩).enable = true ∧
        c.bandwidth < BW_500KHZ
    · have hkeep : lbtKeep conf c = true := by
        rw [lbtKeep, hp.1, hp.2.1, decide_eq_true hp.2.2]
        rfl
      have hlen : acc.length < LGW_LBT_CHANNEL_NB_MAX := by omega
      rw [List.foldl_cons, if_pos ⟨hp.1, hlen, hp.2.1, hp.2.2⟩]
      refine (lbtFold_eq conf tl (acc ++ [lbtChanOf conf c])
        (by simp only [List.length_append, List.length_singleton]; omega)).trans ?_
      rw [List.filter_cons_of_pos hkeep, List.map_cons, List.append_assoc,
        List.singleton_append]
    · have hkeep : lbtKeep conf c = false := by
        by_contra h
        rw [Bool.not_eq_false, lbtKeep] at h
        simp only [Bool.and_eq_true, decide_eq_true_eq] at h
        exact hp ⟨h.1.1, h.1.2, h.2⟩
      rw [List.foldl_cons, if_neg (fun h => hp ⟨h.1, h.2.2.1, h.2.2.2⟩),
        lbtFold_eq conf tl acc (by omega), List.filter_cons_of_neg (by simp [hkeep])]

/-- The derived LBT channel list is the kept chains in order, when the
configuration has the hardware's IF chain count. -/
theorem deriveLbtChannels_eq (conf : Sx130xconf)
    (hlen : conf.ifconf.length = LGW_IF_CHAIN_NB) :
    deriveLbtChannels conf = (conf.ifconf.filter (lbtKeep conf)).map (lbtChanOf conf) := by
  rw [deriveLbtChannels, List.take_of_length_le (by rw [hlen]; decide),
    lbtFold_eq conf conf.ifconf [] (by rw [hlen]; decide)]
  simp

/-- Claim C5: with no LNS-supplied LBT channel list, `setup_LBT` derives the
LBT channels from the enabled uplink chains — one entry per chain whose
bandwidth is at most 250 kHz — sets every derived channel's scan time to
5000 us, sets the RSSI target to -80 dBm for AS923-1 and -67 dBm for KR920,
and enables LBT; for every other CCA region both `setup_LBT` and
`sx130xconf_start` fail. -/
theorem setup_LBT_spec (conf : Sx130xconf)
    (hlen : conf.ifconf.length = LGW_IF_CHAIN_NB)
    (hempty : conf.lbt_conf.channels = [])
    (hwf : ∀ c ∈ conf.ifconf, c.enable = true →
      c.bandwidth = BW_125KHZ ∨ c.bandwidth = BW_250KHZ ∨ c.bandwidth = BW_500KHZ) :
    (∀ r target, (r = CcaRegion.AS923_1 ∧ target = (-80 : Int)) ∨
        (r = CcaRegion.KR920 ∧ target = (-67 : Int)) →
      setup_LBT conf r = some { conf with lbt_conf :=
        { enable := true
          rssi_target := target
          channels := (conf.ifconf.filter fun c =>
              c.enable && (conf.rfconf.getD c.rf_chain ⟨false, 0⟩).enable &&
                (decide (c.bandwidth = BW_125KHZ) || decide (c.bandwidth = BW_250KHZ))).map
            fun c => { lbtChanOf conf c with
              scan_time_us := 5000, transmit_time_ms := TX_DWELLTIME_LBT } } })
    ∧ (∀ r, r ≠ CcaRegion.AS923_1 → r ≠ CcaRegion.KR920 →
        setup_LBT conf r = none ∧ sx130xconf_start conf (some r) = none) := by
  have hfilter : conf.ifconf.filter (lbtKeep conf) =
      conf.ifconf.filter fun c =>
        c.enable && (conf.rfconf.getD c.rf_chain ⟨false, 0⟩).enable &&
          (decide (c.bandwidth = BW_125KHZ) || decide (c.bandwidth = BW_250KHZ)) := by
    apply List.filter_congr
    intro c hc
    by_cases hen : c.enable = true
    · rcases hwf c hc hen with hbw | hbw | hbw <;>
        simp [lbtKeep, hbw, BW_125KHZ, BW_250KHZ, BW_500KHZ]
    · rw [Bool.not_eq_true] at hen
      simp [lbtKeep, hen]
  have hderive :
      (if conf.lbt_conf.channels.isEmpty then deriveLbtChannels conf
       else conf.lbt_conf.channels) = (conf.ifconf.filter (lbtKeep conf)).map (lbtChanOf conf) := by
    rw [hempty]
    exact deriveLbtChannels_eq conf hlen
  constructor
  · rintro r target (⟨rfl, rfl⟩ | ⟨rfl, rfl⟩) <;>
    · show setup_LBT conf _ = _
      rw [setup_LBT]
      simp only [hempty, List.isEmpty_nil, if_true]
      rw [deriveLbtChannels_eq conf hlen, hfilter, List.map_map]
      rfl
  · intro r h1 h2
    have hlbt : ∀ conf2 : Sx130xconf, setup_LBT conf2 r = none := by
      intro conf2
      cases r <;> first
        | exact absurd rfl h1
        | exact absurd rfl h2
        | rfl
    refine ⟨hlbt conf, ?_⟩
    rw [sx130xconf_start]
    simp only [hlbt (limitLut conf (some r))]

/-- Witness for claim C5: on the witness AS923-1 configuration, the derived
LBT list holds the eight enabled 125 kHz chain frequencies (the 500 kHz fast
LoRa chain and the disabled FSK chain are skipped) at scan time 5000 us with
RSSI target -80 dBm and LBT enabled; region EU868 makes both `setup_LBT` and
`sx130xconf_start` fail. -/
theorem setup_LBT_spec_witness :
    setup_LBT testConf CcaRegion.AS923_1 = some { testConf with lbt_conf :=
      { enable := true
        rssi_target := -80
        channels :=
          [⟨922800000, 4, 5000, 4000⟩, ⟨923000000, 4, 5000, 4000⟩,
           ⟨923200000, 4, 5000, 4000⟩, ⟨923400000, 4, 5000, 4000⟩,
           ⟨923300000, 4, 5000, 4000⟩, ⟨923500000, 4, 5000, 4000⟩,
           ⟨923700000, 4, 5000, 4000⟩, ⟨923900000, 4, 5000, 4000⟩] } }
    ∧ setup_LBT testConf CcaRegion.EU868 = none
    ∧ sx130xconf_start testConf (some CcaRegion.EU868) = none := by
  have h := setup_LBT_spec testConf rfl rfl (by decide)
  refine ⟨?_, (h.2 CcaRegion.EU868 (by decide) (by decide)).1,
    (h.2 CcaRegion.EU868 (by decide) (by decide)).2⟩
  exact (h.1 CcaRegion.AS923_1 (-80) (Or.inl ⟨rfl, rfl⟩)).trans (by decide)

/-- Varint decoding inverts fuelled varint encoding for values within the
fuel's range. -/
theorem decVarint_encVarintF : ∀ (fuel n : Nat), n < 128 ^ (fuel + 1) →
    ∀ rest, decVarint (encVarintF fuel n ++ rest) = some (n, rest)
  | 0, n => by
    intro h rest
    have h128 : n < 128 := by simpa using h
    simp only [encVarintF, Nat.mod_eq_of_lt h128, List.cons_append, decVarint, if_pos h128]
    rfl
  | fuel + 1, n => by
    intro h rest
    by_cases hn : n < 128
    · simp only [encVarintF, if_pos hn, List.cons_append, decVarint, if_pos hn]
      rfl
    · have hdiv : n / 128 < 128 ^ (fuel + 1) := by
        rw [Nat.div_lt_iff_lt_mul (by norm_num)]
        calc n < 128 ^ (fuel + 1 + 1) := h
        _ = 128 ^ (fuel + 1) * 128 := by rw [pow_succ]
      simp only [encVarintF, if_neg hn, List.cons_append, decVarint,
        if_neg (show ¬ 128 + n % 128 < 128 by omega)]
      rw [decVarint_encVarintF fuel (n / 128) hdiv rest]
      dsimp only
      have heq : n / 128 * 128 + (128 + n % 128 - 128) = n := by omega
      rw [heq]

/-- Varint decoding inverts varint encoding for 64-bit values. -/
theorem decVarint_encVarint (n : Nat) (h : n < 2 ^ 64) (rest : List Nat) :
    decVarint (encVarint n ++ rest) = some (n, rest) :=
  decVarint_encVarintF 9 n (lt_of_lt_of_le h (by norm_num)) rest

/-- Fixed-width little-endian decoding inverts the encoding. -/
theorem decLE_encLE : ∀ (k n : Nat), n < 256 ^ k →
    ∀ rest, decLE k (encLE k n ++ rest) = some (n, rest)
  | 0, n => by
    intro h rest
    have h0 : n = 0 := by simpa using h
    simp [encLE, decLE, h0]
  | k + 1, n => by
    intro h rest
    have hdiv : n / 256 < 256 ^ k := by
      rw [Nat.div_lt_iff_lt_mul (by norm_num)]
      calc n < 256 ^ (k + 1) := h
      _ = 256 ^ k * 256 := by rw [pow_succ]
    simp only [encLE, List.cons_append, decLE, List.append_eq]
    rw [decLE_encLE k (n / 256) hdiv rest]
    dsimp only
    have heq : n / 256 * 256 + n % 256 = n := by omega
    rw [heq]

/-- Eight-byte little-endian decoding inverts the encoding of a 64-bit
value. -/
theorem decLE_encLE8 (n : Nat) (h : n < 2 ^ 64) (rest : List Nat) :
    decLE 8 (encLE 8 n ++ rest) = some (n, rest) :=
  decLE_encLE 8 n (by calc n < 2 ^ 64 := h
    _ ≤ 256 ^ 8 := by norm_num) rest

/-- The two's complement image of a signed 64-bit value is a 64-bit
unsigned value. -/
theorem toU64_lt (v : Int) : (v % (2 ^ 64 : Int)).toNat < 2 ^ 64 := by omega

/-- Signed reinterpretation inverts the two's complement image on the
signed 64-bit range. -/
theorem fromU64_emod (v : Int) (hlo : -(2 ^ 63) ≤ v) (hhi : v < 2 ^ 63) :
    fromU64 ((v % (2 ^ 64 : Int)).toNat) = v := by
  rw [fromU64]
  split_ifs with h <;> omega

/-- A fuelled varint encoding is never empty. -/
theorem encVarintF_ne_nil (fuel n : Nat) : encVarintF fuel n ≠ [] := by
  cases fuel with
  | zero => simp [encVarintF]
  | succ f =>
    simp only [encVarintF]
    split <;> simp

/-- A field tag followed by anything is never empty. -/
theorem encTag_append_ne_nil (f w : Nat) (l : List Nat) : encTag f w ++ l ≠ [] :=
  fun h => encVarintF_ne_nil 9 _ (List.append_eq_nil.mp h).1

/-- The field loop accepts an exhausted submessage at any fuel. -/
theorem decFields_nil (fuel : Nat) (m : Dnmsg) :
    decDnmsgFields fuel [] m = some m := by
  cases fuel <;> simp [decDnmsgFields]

/-- A fuelled varint encoding takes at most `fuel + 1` bytes. -/
theorem encVarintF_length_le : ∀ (fuel n : Nat), (encVarintF fuel n).length ≤ fuel + 1
  | 0, n => by simp [encVarintF]
  | fuel + 1, n => by
    simp only [encVarintF]
    split
    · simp
    · simpa [List.length_cons] using encVarintF_length_le fuel (n / 128)

/-- A varint encoding takes at most 10 bytes. -/
theorem encVarint_length_le (n : Nat) : (encVarint n).length ≤ 10 :=
  encVarintF_length_le 9 n

/-- A fixed-width little-endian encoding takes exactly its width. -/
theorem encLE_length : ∀ (k n : Nat), (encLE k n).length = k
  | 0, _ => rfl
  | k + 1, n => by simp [encLE, encLE_length k (n / 256)]

/-- One step of the field loop on the `deveui` field (tag 9). -/
theorem decFields_step_deveui (fuel v : Nat) (hv : v < 2 ^ 64) (rest : List Nat)
    (m : Dnmsg) :
    decDnmsgFields (fuel + 1) (encTag 1 1 ++ (encLE 8 v ++ rest)) m =
      decDnmsgFields fuel rest { m with deveui := v } := by
  have h1 : decVarint (encTag 1 1 ++ (encLE 8 v ++ rest)) =
      some (9, encLE 8 v ++ rest) := decVarint_encVarint 9 (by norm_num) _
  simp only [decDnmsgFields]
  rw [if_neg (encTag_append_ne_nil 1 1 _), h1]
  norm_num
  rw [decLE_encLE8 v hv rest]

/-- One step of the field loop on the `dclass` field (tag 16). -/
theorem decFields_step_dclass (fuel v : Nat) (hv : v < 2 ^ 64) (rest : List Nat)
    (m : Dnmsg) :
    decDnmsgFields (fuel + 1) (encTag 2 0 ++ (encVarint v ++ rest)) m =
      decDnmsgFields fuel rest { m with dclass := v % 256 } := by
  have h1 : decVarint (encTag 2 0 ++ (encVarint v ++ rest)) =
      some (16, encVarint v ++ rest) := decVarint_encVarint 16 (by norm_num) _
  simp only [decDnmsgFields]
  rw [if_neg (encTag_append_ne_nil 2 0 _), h1]
  norm_num
  rw [decVarint_encVarint v hv rest]

/-- One step of the field loop on the `diid` field (tag 24). -/
theorem decFields_step_diid (fuel : Nat) (v : Int) (hlo : -(2 ^ 63) ≤ v)
    (hhi : v < 2 ^ 63) (rest : List Nat) (m : Dnmsg) :
    decDnmsgFields (fuel + 1) (encTag 3 0 ++ (encInt64 v ++ rest)) m =
      decDnmsgFields fuel rest { m with diid := v } := by
  have h1 : decVarint (encTag 3 0 ++ (encInt64 v ++ rest)) =
      some (24, encInt64 v ++ rest) := decVarint_encVarint 24 (by norm_num) _
  have h2 : decVarint (encInt64 v ++ rest) =
      some ((v % (2 ^ 64 : Int)).toNat, rest) :=
    decVarint_encVarint _ (toU64_lt v) rest
  simp only [decDnmsgFields]
  rw [if_neg (encTag_append_ne_nil 3 0 _), h1]
  norm_num
  rw [h2]
  dsimp only
  rw [fromU64_emod v hlo hhi]

/-- One step of the field loop on the `pdu` field (tag 34):
length-delimited bytes. -/
theorem decFields_step_pdu (fuel : Nat) (pdu rest : List Nat)
    (hlen : pdu.length < 2 ^ 64) (m : Dnmsg) :
    decDnmsgFields (fuel + 1) (encTag 4 2 ++ (encVarint pdu.length ++ (pdu ++ rest))) m =
      decDnmsgFields fuel rest { m with pdu := pdu } := by
  have h1 : decVarint (encTag 4 2 ++ (encVarint pdu.length ++ (pdu ++ rest))) =
      some (34, encVarint pdu.length ++ (pdu ++ rest)) :=
    decVarint_encVarint 34 (by norm_num) _
  simp only [decDnmsgFields]
  rw [if_neg (encTag_append_ne_nil 4 2 _), h1]
  norm_num
  rw [decVarint_encVarint pdu.length hlen (pdu ++ rest)]
  dsimp only
  rw [if_neg (show ¬ (pdu ++ rest).length < pdu.length by
        simp only [List.length_append]; omega),
    List.take_left' rfl, List.drop_left' rfl]

/-- One step of the field loop on the `rxdelay` field (tag 40). -/
theorem decFields_step_rxdelay (fuel v : Nat) (hv : v < 2 ^ 64) (rest : List Nat)
    (m : Dnmsg) :
    decDnmsgFields (fuel + 1) (encTag 5 0 ++ (encVarint v ++ rest)) m =
      decDnmsgFields fuel rest { m with rxdelay := v % 256 } := by
  have h1 : decVarint (encTag 5 0 ++ (encVarint v ++ rest)) =
      some (40, encVarint v ++ rest) := decVarint_encVarint 40 (by norm_num) _
  simp only [decDnmsgFields]
  rw [if_neg (encTag_append_ne_nil 5 0 _), h1]
  norm_num
  rw [decVarint_encVarint v hv rest]

/-- One step of the field loop on the `rx1dr` field (tag 48). -/
theorem decFields_step_rx1dr (fuel v : Nat) (hv : v < 2 ^ 64) (rest : List Nat)
    (m : Dnmsg) :
    decDnmsgFields (fuel + 1) (encTag 6 0 ++ (encVarint v ++ rest)) m =
      decDnmsgFields fuel rest { m with rx1dr := v % 256 } := by
  have h1 : decVarint (encTag 6 0 ++ (encVarint v ++ rest)) =
      some (48, encVarint v ++ rest) := decVarint_encVarint 48 (by norm_num) _
  simp only [decDnmsgFields]
  rw [if_neg (encTag_append_ne_nil 6 0 _), h1]
  norm_num
  rw [decVarint_encVarint v hv rest]

/-- One step of the field loop on the `rx1freq` field (tag 56). -/
theorem decFields_step_rx1freq (fuel v : Nat) (hv : v < 2 ^ 64) (rest : List Nat)
    (m : Dnmsg) :
    decDnmsgFields (fuel + 1) (encTag 7 0 ++ (encVarint v ++ rest)) m =
      decDnmsgFields fuel rest { m with rx1freq := v } := by
  have h1 : decVarint (encTag 7 0 ++ (encVarint v ++ rest)) =
      some (56, encVarint v ++ rest) := decVarint_encVarint 56 (by norm_num) _
  simp only [decDnmsgFields]
  rw [if_neg (encTag_append_ne_nil 7 0 _), h1]
  norm_num
  rw [decVarint_encVarint v hv rest]

/-- One step of the field loop on the `rx2dr` field (tag 64). -/
theorem decFields_step_rx2dr (fuel v : Nat) (hv : v < 2 ^ 64) (rest : List Nat)
    (m : Dnmsg) :
    decDnmsgFields (fuel + 1) (encTag 8 0 ++ (encVarint v ++ rest)) m =
      decDnmsgFields fuel rest { m with rx2dr := v % 256 } := by
  have h1 : decVarint (encTag 8 0 ++ (encVarint v ++ rest)) =
      some (64, encVarint v ++ rest) := decVarint_encVarint 64 (by norm_num) _
  simp only [decDnmsgFields]
  rw [if_neg (encTag_append_ne_nil 8 0 _), h1]
  norm_num
  rw [decVarint_encVarint v hv rest]

/-- One step of the field loop on the `rx2freq` field (tag 72). -/
theorem decFields_step_rx2freq (fuel v : Nat) (hv : v < 2 ^ 64) (rest : List Nat)
    (m : Dnmsg) :
    decDnmsgFields (fuel + 1) (encTag 9 0 ++ (encVarint v ++ rest)) m =
      decDnmsgFields fuel rest { m with rx2freq := v } := by
  have h1 : decVarint (encTag 9 0 ++ (encVarint v ++ rest)) =
      some (72, encVarint v ++ rest) := decVarint_encVarint 72 (by norm_num) _
  simp only [decDnmsgFields]
  rw [if_neg (encTag_append_ne_nil 9 0 _), h1]
  norm_num
  rw [decVarint_encVarint v hv rest]

/-- One step of the field loop on the `priority` field (tag 80). -/
theorem decFields_step_priority (fuel v : Nat) (hv : v < 2 ^ 64) (rest : List Nat)
    (m : Dnmsg) :
    decDnmsgFields (fuel + 1) (encTag 10 0 ++ (encVarint v ++ rest)) m =
      decDnmsgFields fuel rest { m with priority := v % 256 } := by
  have h1 : decVarint (encTag 10 0 ++ (encVarint v ++ rest)) =
      some (80, encVarint v ++ rest) := decVarint_encVarint 80 (by norm_num) _
  simp only [decDnmsgFields]
  rw [if_neg (encTag_append_ne_nil 10 0 _), h1]
  norm_num
  rw [decVarint_encVarint v hv rest]

/-- One step of the field loop on the `xtime` field (tag 88). -/
theorem decFields_step_xtime (fuel : Nat) (v : Int) (hlo : -(2 ^ 63) ≤ v)
    (hhi : v < 2 ^ 63) (rest : List Nat) (m : Dnmsg) :
    decDnmsgFields (fuel + 1) (encTag 11 0 ++ (encInt64 v ++ rest)) m =
      decDnmsgFields fuel rest { m with xtime := v } := by
  have h1 : decVarint (encTag 11 0 ++ (encInt64 v ++ rest)) =
      some (88, encInt64 v ++ rest) := decVarint_encVarint 88 (by norm_num) _
  have h2 : decVarint (encInt64 v ++ rest) =
      some ((v % (2 ^ 64 : Int)).toNat, rest) :=
    decVarint_encVarint _ (toU64_lt v) rest
  simp only [decDnmsgFields]
  rw [if_neg (encTag_append_ne_nil 11 0 _), h1]
  norm_num
  rw [h2]
  dsimp only
  rw [fromU64_emod v hlo hhi]

/-- One step of the field loop on the `rctx` field (tag 96). -/
theorem decFields_step_rctx (fuel : Nat) (v : Int) (hlo : -(2 ^ 63) ≤ v)
    (hhi : v < 2 ^ 63) (rest : List Nat) (m : Dnmsg) :
    decDnmsgFields (fuel + 1) (encTag 12 0 ++ (encInt64 v ++ rest)) m =
      decDnmsgFields fuel rest { m with rctx := v } := by
  have h1 : decVarint (encTag 12 0 ++ (encInt64 v ++ rest)) =
      some (96, encInt64 v ++ rest) := decVarint_encVarint 96 (by norm_num) _
  have h2 : decVarint (encInt64 v ++ rest) =
      some ((v % (2 ^ 64 : Int)).toNat, rest) :=
    decVarint_encVarint _ (toU64_lt v) rest
  simp only [decDnmsgFields]
  rw [if_neg (encTag_append_ne_nil 12 0 _), h1]
  norm_num
  rw [h2]
  dsimp only
  rw [fromU64_emod v hlo hhi]

/-- One step of the field loop on the `gpstime` field (tag 104). -/
theorem decFields_step_gpstime (fuel : Nat) (v : Int) (hlo : -(2 ^ 63) ≤ v)
    (hhi : v < 2 ^ 63) (rest : List Nat) (m : Dnmsg) :
    decDnmsgFields (fuel + 1) (encTag 13 0 ++ (encInt64 v ++ rest)) m =
      decDnmsgFields fuel rest { m with gpstime := v } := by
  have h1 : decVarint (encTag 13 0 ++ (encInt64 v ++ rest)) =
      some (104, encInt64 v ++ rest) := decVarint_encVarint 104 (by norm_num) _
  have h2 : decVarint (encInt64 v ++ rest) =
      some ((v % (2 ^ 64 : Int)).toNat, rest) :=
    decVarint_encVarint _ (toU64_lt v) rest
  simp only [decDnmsgFields]
  rw [if_neg (encTag_append_ne_nil 13 0 _), h1]
  norm_num
  rw [h2]
  dsimp only
  rw [fromU64_emod v hlo hhi]

/-- One step of the field loop on the `dr` field (tag 112). -/
theorem decFields_step_dr (fuel v : Nat) (hv : v < 2 ^ 64) (rest : List Nat)
    (m : Dnmsg) :
    decDnmsgFields (fuel + 1) (encTag 14 0 ++ (encVarint v ++ rest)) m =
      decDnmsgFields fuel rest { m with dr := v % 256 } := by
  have h1 : decVarint (encTag 14 0 ++ (encVarint v ++ rest)) =
      some (112, encVarint v ++ rest) := decVarint_encVarint 112 (by norm_num) _
  simp only [decDnmsgFields]
  rw [if_neg (encTag_append_ne_nil 14 0 _), h1]
  norm_num
  rw [decVarint_encVarint v hv rest]

/-- One step of the field loop on the `freq` field (tag 120). -/
theorem decFields_step_freq (fuel v : Nat) (hv : v < 2 ^ 64) (rest : List Nat)
    (m : Dnmsg) :
    decDnmsgFields (fuel + 1) (encTag 15 0 ++ (encVarint v ++ rest)) m =
      decDnmsgFields fuel rest { m with freq := v } := by
  have h1 : decVarint (encTag 15 0 ++ (encVarint v ++ rest)) =
      some (120, encVarint v ++ rest) := decVarint_encVarint 120 (by norm_num) _
  simp only [decDnmsgFields]
  rw [if_neg (encTag_append_ne_nil 15 0 _), h1]
  norm_num
  rw [decVarint_encVarint v hv rest]

/-- One step of the field loop on the `muxtime` field (tag 129). -/
theorem decFields_step_muxtime (fuel v : Nat) (hv : v < 2 ^ 64) (rest : List Nat)
    (m : Dnmsg) :
    decDnmsgFields (fuel + 1) (encTag 16 1 ++ (encLE 8 v ++ rest)) m =
      decDnmsgFields fuel rest { m with muxtime := v } := by
  have h1 : decVarint (encTag 16 1 ++ (encLE 8 v ++ rest)) =
      some (129, encLE 8 v ++ rest) := decVarint_encVarint 129 (by norm_num) _
  simp only [decDnmsgFields]
  rw [if_neg (encTag_append_ne_nil 16 1 _), h1]
  norm_num
  rw [decLE_encLE8 v hv rest]

/-- A field tag is at least one byte. -/
theorem encTag_length_pos (f w : Nat) : 0 < (encTag f w).length :=
  List.length_pos.mpr (encVarintF_ne_nil 9 _)

/-- A field tag is at most ten bytes. -/
theorem encTag_length_le (f w : Nat) : (encTag f w).length ≤ 10 :=
  encVarint_length_le _

/-- A signed 64-bit varint encoding is at most ten bytes. -/
theorem encInt64_length_le (v : Int) : (encInt64 v).length ≤ 10 :=
  encVarint_length_le _

/-- The last step of the field loop: the `muxtime` field (tag 129) with
nothing after it. -/
theorem decFields_last_muxtime (fuel v : Nat) (hv : v < 2 ^ 64) (m : Dnmsg) :
    decDnmsgFields (fuel + 1) (encTag 16 1 ++ encLE 8 v) m =
      some { m with muxtime := v } := by
  have h1 : decVarint (encTag 16 1 ++ encLE 8 v) = some (129, encLE 8 v) :=
    decVarint_encVarint 129 (by norm_num) _
  have h2 : decLE 8 (encLE 8 v) = some (v, []) := by
    rw [show encLE 8 v = encLE 8 v ++ [] from (List.append_nil _).symm]
    exact decLE_encLE8 v hv []
  simp only [decDnmsgFields]
  rw [if_neg (encTag_append_ne_nil 16 1 _), h1]
  norm_num
  rw [h2]
  dsimp only
  rw [decFields_nil]

/-- One step of the field loop on the `dclass` field when the value already
fits the byte-sized `u1_t` destination: the narrowing is the identity. -/
theorem decFields_step_dclass_small (fuel v : Nat) (hv : v < 256) (rest : List Nat)
    (m : Dnmsg) :
    decDnmsgFields (fuel + 1) (encTag 2 0 ++ (encVarint v ++ rest)) m =
      decDnmsgFields fuel rest { m with dclass := v } := by
  rw [decFields_step_dclass fuel v (lt_of_lt_of_le hv (by norm_num)) rest m,
    Nat.mod_eq_of_lt hv]

/-- One step of the field loop on the `rxdelay` field when the value already
fits the byte-sized `u1_t` destination: the narrowing is the identity. -/
theorem decFields_step_rxdelay_small (fuel v : Nat) (hv : v < 256) (rest : List Nat)
    (m : Dnmsg) :
    decDnmsgFields (fuel + 1) (encTag 5 0 ++ (encVarint v ++ rest)) m =
      decDnmsgFields fuel rest { m with rxdelay := v } := by
  rw [decFields_step_rxdelay fuel v (lt_of_lt_of_le hv (by norm_num)) rest m,
    Nat.mod_eq_of_lt hv]

/-- One step of the field loop on the `rx1dr` field when the value already
fits the byte-sized `u1_t` destination: the narrowing is the identity. -/
theorem decFields_step_rx1dr_small (fuel v : Nat) (hv : v < 256) (rest : List Nat)
    (m : Dnmsg) :
    decDnmsgFields (fuel + 1) (encTag 6 0 ++ (encVarint v ++ rest)) m =
      decDnmsgFields fuel rest { m with rx1dr := v } := by
  rw [decFields_step_rx1dr fuel v (lt_of_lt_of_le hv (by norm_num)) rest m,
    Nat.mod_eq_of_lt hv]

/-- One step of the field loop on the `rx2dr` field when the value already
fits the byte-sized `u1_t` destination: the narrowing is the identity. -/
theorem decFields_step_rx2dr_small (fuel v : Nat) (hv : v < 256) (rest : List Nat)
    (m : Dnmsg) :
    decDnmsgFields (fuel + 1) (encTag 8 0 ++ (encVarint v ++ rest)) m =
      decDnmsgFields fuel rest { m with rx2dr := v } := by
  rw [decFields_step_rx2dr fuel v (lt_of_lt_of_le hv (by norm_num)) rest m,
    Nat.mod_eq_of_lt hv]

/-- One step of the field loop on the `priority` field when the value already
fits the byte-sized `u1_t` destination: the narrowing is the identity. -/
theorem decFields_step_priority_small (fuel v : Nat) (hv : v < 256) (rest : List Nat)
    (m : Dnmsg) :
    decDnmsgFields (fuel + 1) (encTag 10 0 ++ (encVarint v ++ rest)) m =
      decDnmsgFields fuel rest { m with priority := v } := by
  rw [decFields_step_priority fuel v (lt_of_lt_of_le hv (by norm_num)) rest m,
    Nat.mod_eq_of_lt hv]

/-- One step of the field loop on the `dr` field when the value already
fits the byte-sized `u1_t` destination: the narrowing is the identity. -/
theorem decFields_step_dr_small (fuel v : Nat) (hv : v < 256) (rest : List Nat)
    (m : Dnmsg) :
    decDnmsgFields (fuel + 1) (encTag 14 0 ++ (encVarint v ++ rest)) m =
      decDnmsgFields fuel rest { m with dr := v } := by
  rw [decFields_step_dr fuel v (lt_of_lt_of_le hv (by norm_num)) rest m,
    Nat.mod_eq_of_lt hv]

/-- Claim C6 (amended): binary codec round trip for the downlink data-plane
message: decoding the protobuf encoding of a `DownlinkMessage` recovers
exactly the original field values — device EUI, device class, downlink id,
the binary PDU of up to 255 bytes, the RX1/RX2 parameters, priority, xtime,
rctx, gpstime, and the mux time — including the negative/signed integer
fields, provided the fields with `u1_t` destinations in `tcpb_dnmsg_t`
(device class, rxdelay, rx1dr, rx2dr, priority, dr) are below 256: for
larger wire values `tcpb_decode` narrows them mod 256 when copying them
out, so the decoded message then differs from the original. -/
theorem tcpb_roundtrip_spec (m : Dnmsg)
    (hdeveui : m.deveui < 2 ^ 64)
    (hdclass : m.dclass < 256)
    (hdiid_lo : -(2 ^ 63) ≤ m.diid) (hdiid_hi : m.diid < 2 ^ 63)
    (hpdu : m.pdu.length ≤ 255)
    (hrxdelay : m.rxdelay < 256)
    (hrx1dr : m.rx1dr < 256)
    (hrx1freq : m.rx1freq < 2 ^ 32)
    (hrx2dr : m.rx2dr < 256)
    (hrx2freq : m.rx2freq < 2 ^ 32)
    (hpriority : m.priority < 256)
    (hxtime_lo : -(2 ^ 63) ≤ m.xtime) (hxtime_hi : m.xtime < 2 ^ 63)
    (hrctx_lo : -(2 ^ 63) ≤ m.rctx) (hrctx_hi : m.rctx < 2 ^ 63)
    (hgpstime_lo : -(2 ^ 63) ≤ m.gpstime) (hgpstime_hi : m.gpstime < 2 ^ 63)
    (hdr : m.dr < 256)
    (hfreq : m.freq < 2 ^ 32)
    (hmux : m.muxtime < 2 ^ 64) :
    tcpb_decode (tcpb_encDnmsg m) = some m := by
  have hbounds : 16 ≤ (encDnmsgBody m).length ∧ (encDnmsgBody m).length < 2 ^ 64 := by
    have p1 := encTag_length_pos 1 1
    have p2 := encTag_length_pos 2 0
    have p3 := encTag_length_pos 3 0
    have p4 := encTag_length_pos 4 2
    have p5 := encTag_length_pos 5 0
    have p6 := encTag_length_pos 6 0
    have p7 := encTag_length_pos 7 0
    have p8 := encTag_length_pos 8 0
    have p9 := encTag_length_pos 9 0
    have p10 := encTag_length_pos 10 0
    have p11 := encTag_length_pos 11 0
    have p12 := encTag_length_pos 12 0
    have p13 := encTag_length_pos 13 0
    have p14 := encTag_length_pos 14 0
    have p15 := encTag_length_pos 15 0
    have p16 := encTag_length_pos 16 1
    have q1 := encTag_length_le 1 1
    have q2 := encTag_length_le 2 0
    have q3 := encTag_length_le 3 0
    have q4 := encTag_length_le 4 2
    have q5 := encTag_length_le 5 0
    have q6 := encTag_length_le 6 0
    have q7 := encTag_length_le 7 0
    have q8 := encTag_length_le 8 0
    have q9 := encTag_length_le 9 0
    have q10 := encTag_length_le 10 0
    have q11 := encTag_length_le 11 0
    have q12 := encTag_length_le 12 0
    have q13 := encTag_length_le 13 0
    have q14 := encTag_length_le 14 0
    have q15 := encTag_length_le 15 0
    have q16 := encTag_length_le 16 1
    have r1 := encLE_length 8 m.deveui
    have r2 := encVarint_length_le m.dclass
    have r3 := encInt64_length_le m.diid
    have r4 := encVarint_length_le m.pdu.length
    have r5 := encVarint_length_le m.rxdelay
    have r6 := encVarint_length_le m.rx1dr
    have r7 := encVarint_length_le m.rx1freq
    have r8 := encVarint_length_le m.rx2dr
    have r9 := encVarint_length_le m.rx2freq
    have r10 := encVarint_length_le m.priority
    have r11 := encInt64_length_le m.xtime
    have r12 := encInt64_length_le m.rctx
    have r13 := encInt64_length_le m.gpstime
    have r14 := encVarint_length_le m.dr
    have r15 := encVarint_length_le m.freq
    have r16 := encLE_length 8 m.muxtime
    constructor <;> (simp only [encDnmsgBody, List.length_append]; omega)
  have hb64 : (encDnmsgBody m).length < 2 ^ 64 := hbounds.2
  obtain ⟨k, hk⟩ : ∃ k, (encDnmsgBody m).length = k + 16 :=
    ⟨(encDnmsgBody m).length - 16, by omega⟩
  have w1 : decVarint (encTag 1 0 ++ (encVarint 10 ++ (encTag 10 2 ++
      (encVarint (encDnmsgBody m).length ++ encDnmsgBody m)))) =
      some (8, encVarint 10 ++ (encTag 10 2 ++
        (encVarint (encDnmsgBody m).length ++ encDnmsgBody m))) :=
    decVarint_encVarint 8 (by norm_num) _
  have w3 : decVarint (encTag 10 2 ++
      (encVarint (encDnmsgBody m).length ++ encDnmsgBody m)) =
      some (82, encVarint (encDnmsgBody m).length ++ encDnmsgBody m) :=
    decVarint_encVarint 82 (by norm_num) _
  simp only [tcpb_decode, tcpb_encDnmsg]
  rw [w1]
  norm_num
  rw [decVarint_encVarint 10 (by norm_num)]
  norm_num
  rw [w3]
  norm_num
  rw [decVarint_encVarint (encDnmsgBody m).length hb64]
  dsimp only
  rw [if_neg (lt_irrefl _), List.take_length, hk]
  simp only [encDnmsgBody]
  refine (decFields_step_deveui (k + 15) m.deveui hdeveui _ _).trans ?_
  refine (decFields_step_dclass_small (k + 14) m.dclass hdclass _ _).trans ?_
  refine (decFields_step_diid (k + 13) m.diid hdiid_lo hdiid_hi _ _).trans ?_
  refine (decFields_step_pdu (k + 12) m.pdu _
    (lt_of_le_of_lt hpdu (by norm_num)) _).trans ?_
  refine (decFields_step_rxdelay_small (k + 11) m.rxdelay hrxdelay _ _).trans ?_
  refine (decFields_step_rx1dr_small (k + 10) m.rx1dr hrx1dr _ _).trans ?_
  refine (decFields_step_rx1freq (k + 9) m.rx1freq
    (lt_of_lt_of_le hrx1freq (by norm_num)) _ _).trans ?_
  refine (decFields_step_rx2dr_small (k + 8) m.rx2dr hrx2dr _ _).trans ?_
  refine (decFields_step_rx2freq (k + 7) m.rx2freq
    (lt_of_lt_of_le hrx2freq (by norm_num)) _ _).trans ?_
  refine (decFields_step_priority_small (k + 6) m.priority hpriority _ _).trans ?_
  refine (decFields_step_xtime (k + 5) m.xtime hxtime_lo hxtime_hi _ _).trans ?_
  refine (decFields_step_rctx (k + 4) m.rctx hrctx_lo hrctx_hi _ _).trans ?_
  refine (decFields_step_gpstime (k + 3) m.gpstime hgpstime_lo hgpstime_hi _ _).trans ?_
  refine (decFields_step_dr_small (k + 2) m.dr hdr _ _).trans ?_
  refine (decFields_step_freq (k + 1) m.freq
    (lt_of_lt_of_le hfreq (by norm_num)) _ _).trans ?_
  exact (decFields_last_muxtime k m.muxtime hmux _).trans rfl

/-- Witness for claim C6: the concrete downlink message of
`test_decode_dnmsg_basic` (device EUI `0x0102030405060708`, diid 123456,
five PDU bytes, RX1 at DR 5 / 868.1 MHz) survives the encode-decode round
trip. -/
theorem tcpb_roundtrip_spec_witness :
    tcpb_decode (tcpb_encDnmsg testDnmsg) = some testDnmsg :=
  tcpb_roundtrip_spec testDnmsg (by decide) (by decide) (by decide) (by decide)
    (by decide) (by decide) (by decide) (by decide) (by decide) (by decide)
    (by decide) (by decide) (by decide) (by decide) (by decide) (by decide)
    (by decide) (by decide) (by decide) (by decide)

/-- Claim C9: PPS loss recovery.  A valid PPS pulse clears the loss and
failure counters.  Below 90 seconds of PPS silence the monitor stays idle;
from 90 seconds on it invokes the GPS-enable toggle and keeps operating,
retrying every 5 seconds; once 6 resets have failed it exits the process.
Concretely, 120 seconds without PPS produce resets at seconds 90, 95, 100,
105, 110, 115 and a process exit at second 120. -/
theorem pps_loss_recovery_spec :
    (∀ s : PpsState, ppsStep s true = (PpsState.init, .idle))
    ∧ (∀ s : PpsState, s.noPpsSecs + 1 < NO_PPS_RESET_THRES →
        (ppsStep s false).2 = .idle)
    ∧ (∀ s : PpsState, s.resetAttempts < NO_PPS_RESET_FAIL_THRES →
        NO_PPS_RESET_THRES ≤ s.noPpsSecs + 1 →
        (s.noPpsSecs + 1 - NO_PPS_RESET_THRES) % PPS_RESET_RETRY_SECS = 0 →
        (ppsStep s false).2 = .resetGps)
    ∧ (∀ s : PpsState, NO_PPS_RESET_FAIL_THRES ≤ s.resetAttempts →
        NO_PPS_RESET_THRES ≤ s.noPpsSecs + 1 →
        (s.noPpsSecs + 1 - NO_PPS_RESET_THRES) % PPS_RESET_RETRY_SECS = 0 →
        (ppsStep s false).2 = .exitRestart)
    ∧ (ppsRun PpsState.init (List.replicate 120 false)).2 =
        List.replicate 89 PpsAction.idle ++
          ((List.replicate 6
              ([PpsAction.resetGps] ++ List.replicate 4 PpsAction.idle)).flatten ++
            [PpsAction.exitRestart]) := by
  refine ⟨fun s => rfl, fun s h => ?_, fun s h1 h2 h3 => ?_, fun s h1 h2 h3 => ?_, by decide⟩
  · rw [ppsStep]
    rw [if_neg (by simp), if_neg (by rw [NO_PPS_RESET_THRES] at h ⊢; omega)]
  · rw [ppsStep]
    rw [if_neg (by simp), if_pos ⟨h2, h3⟩, if_neg (by omega)]
  · rw [ppsStep]
    rw [if_neg (by simp), if_pos ⟨h2, h3⟩, if_pos h1]

/-- Witness for claim C9: at 89 seconds of silence the next second triggers
the first GPS reset; with 6 failed resets on the books the next due retry
exits instead; a valid pulse at any state restores the fresh state. -/
theorem pps_loss_recovery_spec_witness :
    (ppsStep ⟨89, 0⟩ false).2 = PpsAction.resetGps
    ∧ (ppsStep ⟨119, 6⟩ false).2 = PpsAction.exitRestart
    ∧ (ppsStep ⟨50, 3⟩ false).2 = PpsAction.idle
    ∧ ppsStep ⟨200, 6⟩ true = (PpsState.init, PpsAction.idle) :=
  ⟨pps_loss_recovery_spec.2.2.1 ⟨89, 0⟩ (by decide) (by decide) (by decide),
    pps_loss_recovery_spec.2.2.2.1 ⟨119, 6⟩ (by decide) (by decide) (by decide),
    pps_loss_recovery_spec.2.1 ⟨50, 3⟩ (by decide),
    pps_loss_recovery_spec.1 ⟨200, 6⟩⟩

set_option maxRecDepth 4096

/-- Counterexample for claim C6 as originally stated: the round trip does
not recover every field value.  A downlink message whose device class wire
value is 300 decodes to device class 44, because `tcpb_decode` copies the
decoded `uint32` into the byte-sized `u1_t` field `dclass` of
`tcpb_dnmsg_t`, narrowing it mod 256. -/
theorem tcpb_roundtrip_overflow_counterexample :
    tcpb_decode (tcpb_encDnmsg { testDnmsg with dclass := 300 }) =
      some { testDnmsg with dclass := 44 }
    ∧ tcpb_decode (tcpb_encDnmsg { testDnmsg with dclass := 300 }) ≠
      some { testDnmsg with dclass := 300 } := by
  exact ⟨by decide, by decide⟩

set_option maxRecDepth 512
